import Mathlib

/-!
Verification of the fixed-step scheduler (`src/schedule.rs`), the sweep-and-slide
character controller (`src/character_controller.rs`) and the record/replay glue
(`src/main.rs`) of the avian-3d-kcc repository.

Scalars of the Rust code are `f32`; they are embedded as real numbers (exact
arithmetic).  `Duration` values are embedded as natural numbers of nanoseconds.
The Avian spatial-query service is an external collaborator and is embedded as
an abstract function from sweep queries to optional hits.
-/

set_option autoImplicit false

namespace KCC

/-! ### Constants (character_controller.rs lines 7-8, schedule.rs line 74, main.rs line 29) -/

/-- Constant `MAX_BOUNCES: u8 = 5`. -/
def MAX_BOUNCES : ℕ := 5

/-- Constant `SKIN_WIDTH: f32 = 0.005`. -/
noncomputable def SKIN_WIDTH : ℝ := 0.005

/-- The timestep `Duration::from_micros(15625)` of `expend_custom`, in nanoseconds. -/
def timestep : ℕ := 15625000

/-! ### Vectors

`bevy::math::Vec3` embedded with real components. -/

/-- A 3-component vector (`Vec3` of the source). -/
@[ext]
structure Vec3 where
  x : ℝ
  y : ℝ
  z : ℝ

noncomputable instance : DecidableEq Vec3 := Classical.decEq _

instance : Zero Vec3 := ⟨⟨0, 0, 0⟩⟩

instance : Add Vec3 := ⟨fun a b => ⟨a.x + b.x, a.y + b.y, a.z + b.z⟩⟩

instance : Sub Vec3 := ⟨fun a b => ⟨a.x - b.x, a.y - b.y, a.z - b.z⟩⟩

instance : SMul ℝ Vec3 := ⟨fun c v => ⟨c * v.x, c * v.y, c * v.z⟩⟩

namespace Vec3

/-- Dot product (`Vec3::dot`). -/
def dot (a b : Vec3) : ℝ := a.x * b.x + a.y * b.y + a.z * b.z

/-- Squared euclidean length. -/
def normSq (v : Vec3) : ℝ := v.x * v.x + v.y * v.y + v.z * v.z

/-- Euclidean length (`Vec3::length`). -/
noncomputable def length (v : Vec3) : ℝ := Real.sqrt v.normSq

end Vec3

/-- Model of `Dir3::new`: normalizing a vector fails exactly on the zero vector
(the `f32` version also rejects non-finite input, which has no exact
counterpart). -/
noncomputable def dir3New (v : Vec3) : Option Vec3 :=
  if v = 0 then none else some ((Vec3.length v)⁻¹ • v)

/-! ### The spatial-query collaborator

`SpatialQuery::cast_shape` (character_controller.rs lines 77-85).  The collider
shape, rotation and excluded-entity filter are fixed throughout a run and are
absorbed into the oracle function.  Only the fields the controller reads
(`normal1`, `time_of_impact`) are kept; `point2` feeds a debug gizmo only. -/

/-- Result of a sweep (the fields of Avian's `ShapeHitData` read by the mover). -/
structure SweepHit where
  toi : ℝ
  normal : Vec3

/-- A sweep request: origin, unit direction and maximum travel distance. -/
structure Query where
  pos : Vec3
  dir : Vec3
  maxDist : ℝ

/-- The geometry query service: a scene, as a function from queries to hits. -/
def Oracle : Type := Query → Option SweepHit

/-- Contract of the geometry query service: a reported hit lies on the swept
segment (`0 ≤ toi ≤ maxDist`) and carries a unit surface normal. -/
def OracleValid (o : Oracle) : Prop :=
  ∀ q h, o q = some h → 0 ≤ h.toi ∧ h.toi ≤ q.maxDist ∧ Vec3.normSq h.normal = 1

/-! ### The sweep-and-slide loop (character_controller.rs lines 49-136) -/

/-- Mutable loop state of one `move_character_controllers` body iteration:
`transform.translation`, `direction_result`, `distance`, `start_direction`,
`planes`, `bounce_count`, `hit_count`; `nudges` counts how many times the
anti-jitter correction of lines 114-118 fired (a ghost counter, it influences
nothing). -/
@[ext]
structure MoveState where
  pos : Vec3
  dirRes : Option Vec3
  dist : ℝ
  startDir : Vec3
  planes : List Vec3
  bounces : ℕ
  hits : ℕ
  nudges : ℕ

/-- The anti-jitter loop of lines 114-118: for every previously recorded plane
whose dot product with the new normal exceeds `0.99`, push the projected
velocity by `0.01 * normal`. -/
noncomputable def nudge (normal : Vec3) (planes : List Vec3) (pv : Vec3) : Vec3 :=
  planes.foldl
    (fun pv plane =>
      if (0.99 : ℝ) < Vec3.dot normal plane then pv + (0.01 : ℝ) • normal else pv)
    pv

/-- Number of planes that trigger the anti-jitter correction. -/
noncomputable def nudgeCount (normal : Vec3) (planes : List Vec3) : ℕ :=
  planes.countP (fun plane => decide ((0.99 : ℝ) < Vec3.dot normal plane))

/-- Lines 104-108 of the blocking-contact branch: `extra_distance` is the part
of the remaining distance not consumed by the advance, `extra_velocity` points
it along the travel direction, and the projected velocity removes its
component along the hit normal. -/
noncomputable def projectedOf (dist : ℝ) (dir : Vec3) (hit : SweepHit) : Vec3 :=
  let extraDistance := dist - max (hit.toi - SKIN_WIDTH) 0
  let extraVelocity := extraDistance • dir
  extraVelocity - Vec3.dot extraVelocity hit.normal • hit.normal

open Classical in
/-- One iteration of the `for _ in 0..MAX_BOUNCES` loop (lines 67-131).  The
boolean is `true` when the loop continues to the next iteration and `false`
on any of the `break`s. -/
noncomputable def moveIter (oracle : Oracle) (st : MoveState) : MoveState × Bool :=
  let st := { st with bounces := st.bounces + 1 }
  match st.dirRes with
  | none => (st, false)
  | some dir =>
    match oracle ⟨st.pos, dir, st.dist + SKIN_WIDTH⟩ with
    | none => ({ st with pos := st.pos + st.dist • dir }, false)
    | some hit =>
      let st := { st with hits := st.hits + 1 }
      if st.dist ≤ hit.toi then
        ({ st with pos := st.pos + max (hit.toi - SKIN_WIDTH) 0 • dir }, false)
      else
        let st :=
          if SKIN_WIDTH ≤ hit.toi then
            { st with pos := st.pos + (hit.toi - SKIN_WIDTH) • dir }
          else st
        let projected := projectedOf st.dist dir hit
        if Vec3.dot projected st.startDir ≤ 0 then (st, false)
        else
          let projected' := nudge hit.normal st.planes projected
          ({ st with
              planes := st.planes ++ [hit.normal]
              dirRes := dir3New projected'
              dist := Vec3.length projected'
              nudges := st.nudges + nudgeCount hit.normal st.planes }, true)

/-- The bounded bounce loop, `fuel` iterations at most. -/
noncomputable def moveLoop (oracle : Oracle) : ℕ → MoveState → MoveState
  | 0, st => st
  | fuel + 1, st =>
    let p := moveIter oracle st
    if p.2 then moveLoop oracle fuel p.1 else p.1

/-- A controllable body: `Transform::translation` plus
`CharacterController::velocity` (rotation never changes and is absorbed into
the oracle). -/
@[ext]
structure Body where
  pos : Vec3
  velocity : Vec3

/-- Outcome of moving one body: the new body plus the diagnostic counters. -/
structure MoveResult where
  body : Body
  bounces : ℕ
  hits : ℕ
  nudges : ℕ

/-- The per-body part of `move_character_controllers` (lines 55-135): bail out
when the velocity is not normalizable, otherwise run the bounce loop. -/
noncomputable def moveCharacter (oracle : Oracle) (dt : ℝ) (b : Body) : MoveResult :=
  match dir3New b.velocity with
  | none => ⟨b, 0, 0, 0⟩
  | some startDir =>
    let st := moveLoop oracle MAX_BOUNCES
      { pos := b.pos
        dirRes := some startDir
        dist := Vec3.length b.velocity * dt
        startDir := startDir
        planes := []
        bounces := 0
        hits := 0
        nudges := 0 }
    ⟨⟨st.pos, b.velocity⟩, st.bounces, st.hits, st.nudges⟩

/-! ### The custom clock and schedule (schedule.rs lines 53-117, main.rs lines 31-105)

`Time<CustomTime>` holds the overstep context plus the generic clock data that
`advance_by` maintains; only `delta` and `elapsed` of the latter are read by
this program.  Durations are nanosecond counts. -/

/-- The `Time<CustomTime>` resource: `overstep` (CustomTime context) together
with the generic `delta`/`elapsed` that `Time::advance_by` maintains. -/
structure CustomClock where
  overstep : ℕ
  elapsed : ℕ
  delta : ℕ

/-- A freshly initialized `Time<CustomTime>` (`init_resource`): everything zero. -/
def freshClock : CustomClock := ⟨0, 0, 0⟩

/-- The parts of the Bevy `World` this program reads and writes:
the custom clock, the generic `Time` resource's delta (what
`time.delta_seconds()` reads during a tick), the current frame's
`Time<Virtual>` delta, the `CustomStepping` flag, the `Cli::playback` flag,
`FrameCount`, `RecordedVelocities`, the controllable bodies and the static
scene.  `liveInput` is the external input-mapping collaborator: the velocity
that the keyboard/camera mapping of `set_velocity` would write at a given
frame count. -/
@[ext]
structure World where
  clock : CustomClock
  genericDelta : ℕ
  virtualDelta : ℕ
  steppingEnabled : Bool
  playback : Bool
  frameCount : ℕ
  recorded : ℕ → Option Vec3
  liveInput : ℕ → Vec3
  bodies : List Body
  oracle : Oracle

/-- Model of `HashMap::insert` on the recorded-velocities map. -/
noncomputable def insertRec (m : ℕ → Option Vec3) (k : ℕ) (v : Vec3) :
    ℕ → Option Vec3 :=
  fun k' => if k' = k then some v else m k'

/-- Seconds represented by a nanosecond count (`Time::delta_seconds`). -/
noncomputable def dtSeconds (n : ℕ) : ℝ := (n : ℝ) / 1000000000

open Classical in
/-- The `set_velocity` system (main.rs lines 232-281): during playback, look
the current frame count up in the recorded map and do nothing when absent;
live, write the externally mapped velocity to every controller and record it
(the source inserts from inside the controller loop, so nothing is recorded
when there is no controller). -/
noncomputable def setVelocity (w : World) : World :=
  if w.playback then
    match w.recorded w.frameCount with
    | none => w
    | some v => { w with bodies := w.bodies.map (fun b => { b with velocity := v }) }
  else
    let v := w.liveInput w.frameCount
    { w with
        bodies := w.bodies.map (fun b => { b with velocity := v })
        recorded := if w.bodies.isEmpty then w.recorded else insertRec w.recorded w.frameCount v }

/-- One run of the `CustomMain` schedule: `increment_frame` then `set_velocity`
(CustomPreUpdate, chained in that order) then `move_character_controllers`
(CustomPostUpdate), the mover reading the generic `Time` delta. -/
noncomputable def customMain (w : World) : World :=
  let w := { w with frameCount := w.frameCount + 1 }
  let w := setVelocity w
  { w with
      bodies := w.bodies.map
        (fun b => (moveCharacter w.oracle (dtSeconds w.genericDelta) b).body) }

/-- The `while expend_custom(..)` loop of `run_custom_schedule` (lines 100-105):
while a whole timestep is owed, `expend_custom` subtracts it from the
overstep, advances the clock by it (setting `delta := timestep`), the generic
`Time` resource is overwritten with the custom clock, and `CustomMain` runs. -/
noncomputable def drainRun (w : World) : World :=
  if h : timestep ≤ w.clock.overstep then
    drainRun (customMain
      { w with
          clock := ⟨w.clock.overstep - timestep, w.clock.elapsed + timestep, timestep⟩
          genericDelta := timestep })
  else w
termination_by w.clock.overstep
decreasing_by
  have hc : ∀ v : World, (customMain v).clock = v.clock := by
    intro v
    unfold customMain setVelocity
    simp only []
    split
    · split <;> rfl
    · rfl
  rw [hc]
  simp only [timestep] at h ⊢
  omega

/-- The `run_custom_schedule` system (lines 86-108): bail out when stepping is
enabled; otherwise add the virtual frame delta to the overstep, drain it one
timestep at a time running `CustomMain` each time, and finally restore the
generic `Time` from `Time<Virtual>`. -/
noncomputable def runCustomSchedule (w : World) : World :=
  if w.steppingEnabled then w
  else
    let w := { w with clock := { w.clock with overstep := w.clock.overstep + w.virtualDelta } }
    let w := drainRun w
    { w with genericDelta := w.virtualDelta }

/-- The `step_custom_schedule` function (lines 110-117): overwrite the generic
`Time` with the custom clock, run `CustomMain` once unconditionally, restore
the generic `Time` from `Time<Virtual>`. -/
noncomputable def stepCustomSchedule (w : World) : World :=
  let w' := customMain { w with genericDelta := w.clock.delta }
  { w' with genericDelta := w.virtualDelta }

/-- A sequence of render frames in free-running operation: each frame carries
its own `Time<Virtual>` delta and runs `run_custom_schedule` once. -/
noncomputable def runFrames (w : World) (ds : List ℕ) : World :=
  ds.foldl (fun w δ => runCustomSchedule { w with virtualDelta := δ }) w

/-- Modelled from the spec: the RON persistence of `RecordedVelocities`
(`serialize_timestamped_inputs` / `ron::de::from_str`, whose serializer lives
in the external `ron` crate, not under src) round-trips exactly — §6 "Field
names and container shape must round-trip exactly". Saving then loading is
therefore the identity on the recorded map. -/
def saveLoadRecorded (m : ℕ → Option Vec3) : ℕ → Option Vec3 := m

/-- A concrete world with no bodies, an empty scene and zeroed input. -/
noncomputable def emptyWorld : World where
  clock := freshClock
  genericDelta := 0
  virtualDelta := 0
  steppingEnabled := false
  playback := false
  frameCount := 0
  recorded := fun _ => none
  liveInput := fun _ => 0
  bodies := []
  oracle := fun _ => none

/-- A concrete world in stepping (single-pulse) mode whose current render frame
elapsed 5 nanoseconds. -/
noncomputable def steppingWorld : World :=
  { emptyWorld with steppingEnabled := true, virtualDelta := 5 }

open Classical in
/-- A concrete scene: any sweep along `(1,0,0)` grazes a surface at distance 0
whose unit normal `(0,0,-1)` is perpendicular to the sweep; sweeps in other
directions are unobstructed. -/
noncomputable def c4Oracle : Oracle := fun q =>
  if q.dir = (⟨1, 0, 0⟩ : Vec3) ∧ 0 ≤ q.maxDist then some ⟨0, ⟨0, 0, -1⟩⟩ else none

/-- A body at the origin asking to travel `0.48 * (1/64) = 0.0075` along x. -/
noncomputable def c4Body : Body := ⟨⟨0, 0, 0⟩, ⟨0.48, 0, 0⟩⟩

/-- Loop state of the `c4Oracle` run when entering iteration 1. -/
noncomputable def c4St0 : MoveState :=
  ⟨⟨0, 0, 0⟩, some ⟨1, 0, 0⟩, 0.0075, ⟨1, 0, 0⟩, [], 0, 0, 0⟩

/-- Loop state after iteration 1 (grazing hit, no advance, projection no-op). -/
noncomputable def c4St1 : MoveState :=
  ⟨⟨0, 0, 0⟩, some ⟨1, 0, 0⟩, 0.0075, ⟨1, 0, 0⟩, [⟨0, 0, -1⟩], 1, 1, 0⟩

/-- Loop state after iteration 2 (same grazing hit, but now the anti-jitter
nudge fires against the recorded parallel plane and grows the remaining
distance from `0.0075` to `0.0125`). -/
noncomputable def c4St2 : MoveState :=
  ⟨⟨0, 0, 0⟩, some ⟨0.6, 0, -0.8⟩, 0.0125, ⟨1, 0, 0⟩,
    [⟨0, 0, -1⟩, ⟨0, 0, -1⟩], 2, 2, 1⟩

/-- Loop state after iteration 3 (no hit: the full grown distance is
travelled). -/
noncomputable def c4St3 : MoveState :=
  ⟨⟨0.0075, 0, -0.01⟩, some ⟨0.6, 0, -0.8⟩, 0.0125, ⟨1, 0, 0⟩,
    [⟨0, 0, -1⟩, ⟨0, 0, -1⟩], 3, 2, 1⟩

/-- A body at the origin asking to travel `12.8 * (1/64) = 0.2` along x. -/
noncomputable def wallBody : Body := ⟨⟨0, 0, 0⟩, ⟨12.8, 0, 0⟩⟩

open Classical in
/-- A flat wall directly ahead: sweeps along `(1,0,0)` hit it at distance
`0.1` with unit normal `(-1,0,0)` facing straight back at the mover. -/
noncomputable def c6Oracle : Oracle := fun q =>
  if q.dir = (⟨1, 0, 0⟩ : Vec3) ∧ 0.1 ≤ q.maxDist then some ⟨0.1, ⟨-1, 0, 0⟩⟩ else none

/-- Loop state of the `c6Oracle` run when entering iteration 1. -/
noncomputable def c6St0 : MoveState :=
  ⟨⟨0, 0, 0⟩, some ⟨1, 0, 0⟩, 0.2, ⟨1, 0, 0⟩, [], 0, 0, 0⟩

open Classical in
/-- A flat wall directly ahead at distance `0.008`, between one and two skin
widths away. -/
noncomputable def c5Oracle : Oracle := fun q =>
  if q.dir = (⟨1, 0, 0⟩ : Vec3) ∧ 0.008 ≤ q.maxDist then some ⟨0.008, ⟨-1, 0, 0⟩⟩ else none

/-- Loop state of the `c5Oracle` run when entering iteration 1. -/
noncomputable def c5St0 : MoveState :=
  ⟨⟨0, 0, 0⟩, some ⟨1, 0, 0⟩, 0.2, ⟨1, 0, 0⟩, [], 0, 0, 0⟩

/-- A live-mode world with one motionless body at the origin and constant
external input velocity `(15,0,0)`. -/
noncomputable def c9World : World :=
  { emptyWorld with
      bodies := [⟨⟨0, 0, 0⟩, ⟨0, 0, 0⟩⟩]
      liveInput := fun _ => ⟨15, 0, 0⟩ }

/-- The live session of the replay round-trip: one render frame elapsing
exactly one timestep, live input `(15,0,0)`, an empty scene. -/
noncomputable def liveWorld : World :=
  { emptyWorld with
      bodies := [⟨⟨0, 0, 0⟩, ⟨0, 0, 0⟩⟩]
      liveInput := fun _ => ⟨15, 0, 0⟩
      virtualDelta := timestep }

/-- The world the live session ends in: one tick ran (recording the input
under key 1 and moving the body by `15 * 0.015625 = 0.234375` along x), the
custom clock was advanced by one timestep. -/
noncomputable def liveResult : World where
  clock := ⟨0, timestep, timestep⟩
  genericDelta := timestep
  virtualDelta := timestep
  steppingEnabled := false
  playback := false
  frameCount := 1
  recorded := insertRec (fun _ => none) 1 ⟨15, 0, 0⟩
  liveInput := fun _ => ⟨15, 0, 0⟩
  bodies := [⟨⟨0.234375, 0, 0⟩, ⟨15, 0, 0⟩⟩]
  oracle := fun _ => none

/-- The live world right after accumulating the frame delta and expending one
timestep, as `CustomMain` observes it. -/
noncomputable def liveTickWorld : World :=
  { liveWorld with clock := ⟨0, timestep, timestep⟩, genericDelta := timestep }

/-- The replay session: playback mode (which enables stepping, main.rs lines
73-75), fresh clock, the same initial body and scene, driven by the saved
recording of the live session. -/
noncomputable def replayWorld : World :=
  { emptyWorld with
      bodies := [⟨⟨0, 0, 0⟩, ⟨0, 0, 0⟩⟩]
      playback := true
      steppingEnabled := true
      recorded := saveLoadRecorded ((runCustomSchedule liveWorld).recorded) }

/-- The empty scene: every sweep reports no hit. -/
noncomputable def noneOracle : Oracle := fun _ => none

/-! ### Scheduler lemmas -/

theorem setVelocity_clock (w : World) : (setVelocity w).clock = w.clock := by
  unfold setVelocity
  split
  · split <;> rfl
  · rfl

theorem customMain_clock (w : World) : (customMain w).clock = w.clock := by
  unfold customMain
  simp [setVelocity_clock]

theorem setVelocity_frameCount (w : World) : (setVelocity w).frameCount = w.frameCount := by
  unfold setVelocity
  split
  · split <;> rfl
  · rfl

theorem setVelocity_stepping (w : World) :
    (setVelocity w).steppingEnabled = w.steppingEnabled := by
  unfold setVelocity
  split
  · split <;> rfl
  · rfl

theorem setVelocity_playback (w : World) : (setVelocity w).playback = w.playback := by
  unfold setVelocity
  split
  · split <;> rfl
  · rfl

theorem customMain_frameCount (w : World) : (customMain w).frameCount = w.frameCount + 1 := by
  unfold customMain
  simp [setVelocity_frameCount]

theorem customMain_stepping (w : World) :
    (customMain w).steppingEnabled = w.steppingEnabled := by
  unfold customMain
  simp [setVelocity_stepping]

theorem customMain_playback (w : World) : (customMain w).playback = w.playback := by
  unfold customMain
  simp [setVelocity_playback]

theorem drainRun_overstep (w : World) :
    (drainRun w).clock.overstep = w.clock.overstep % timestep := by
  induction w using drainRun.induct with
  | case1 w h ih =>
    rw [drainRun, dif_pos h]
    rw [ih, customMain_clock]
    simp only [timestep] at h ⊢
    omega
  | case2 w h =>
    rw [drainRun, dif_neg h]
    simp only [timestep] at h ⊢
    omega

theorem drainRun_frameCount (w : World) :
    (drainRun w).frameCount = w.frameCount + w.clock.overstep / timestep := by
  induction w using drainRun.induct with
  | case1 w h ih =>
    rw [drainRun, dif_pos h]
    rw [ih, customMain_frameCount, customMain_clock]
    simp only [timestep] at h ⊢
    omega
  | case2 w h =>
    rw [drainRun, dif_neg h]
    simp only [timestep] at h ⊢
    omega

theorem drainRun_stepping (w : World) :
    (drainRun w).steppingEnabled = w.steppingEnabled := by
  induction w using drainRun.induct with
  | case1 w h ih =>
    rw [drainRun, dif_pos h]
    rw [ih, customMain_stepping]
  | case2 w h =>
    rw [drainRun, dif_neg h]

theorem runCustomSchedule_frameCount (w : World) (hs : w.steppingEnabled = false) :
    (runCustomSchedule w).frameCount
      = w.frameCount + (w.clock.overstep + w.virtualDelta) / timestep := by
  unfold runCustomSchedule
  rw [if_neg (by rw [hs]; exact Bool.false_ne_true)]
  simp [drainRun_frameCount]

theorem runCustomSchedule_overstep (w : World) (hs : w.steppingEnabled = false) :
    (runCustomSchedule w).clock.overstep
      = (w.clock.overstep + w.virtualDelta) % timestep := by
  unfold runCustomSchedule
  rw [if_neg (by rw [hs]; exact Bool.false_ne_true)]
  simp [drainRun_overstep]

theorem runCustomSchedule_stepping (w : World) :
    (runCustomSchedule w).steppingEnabled = w.steppingEnabled := by
  unfold runCustomSchedule
  split
  · rfl
  · simp [drainRun_stepping]

/-- Accumulated drain arithmetic over any frame sequence, assuming the
overstep invariant holds initially. -/
theorem runFrames_spec (ds : List ℕ) (w : World) (hs : w.steppingEnabled = false)
    (hinv : w.clock.overstep < timestep) :
    (runFrames w ds).frameCount = w.frameCount + (w.clock.overstep + ds.sum) / timestep ∧
    (runFrames w ds).clock.overstep = (w.clock.overstep + ds.sum) % timestep := by
  induction ds generalizing w with
  | nil =>
    simp only [runFrames, List.foldl_nil, List.sum_nil, Nat.add_zero]
    simp only [timestep] at hinv ⊢
    omega
  | cons d ds ih =>
    have hstep : runFrames w (d :: ds)
        = runFrames (runCustomSchedule { w with virtualDelta := d }) ds := by
      simp only [runFrames, List.foldl_cons]
    have hse : ({ w with virtualDelta := d } : World).steppingEnabled = false := hs
    have hs' : (runCustomSchedule { w with virtualDelta := d }).steppingEnabled = false := by
      rw [runCustomSchedule_stepping]; exact hse
    have hf1 := runCustomSchedule_frameCount { w with virtualDelta := d } hse
    have ho1 := runCustomSchedule_overstep { w with virtualDelta := d } hse
    have hinv' : (runCustomSchedule { w with virtualDelta := d }).clock.overstep < timestep := by
      rw [ho1]
      exact Nat.mod_lt _ (by simp [timestep])
    obtain ⟨ihf, iho⟩ := ih (runCustomSchedule { w with virtualDelta := d }) hs' hinv'
    rw [hstep, ihf, iho, hf1, ho1]
    simp only [List.sum_cons, timestep]
    constructor <;> omega

/-- C1: for every initial overstep `0 ≤ overstep_0 < timestep` and every frame
sequence summing to `T`, free-running accumulation and draining executes
exactly `(T + overstep_0) / timestep` ticks in total (each tick runs
`CustomMain` once, visible as a `FrameCount` increment) and leaves the
overstep equal to `(T + overstep_0) % timestep`, independent of how `T` is
split across frames; in particular `0 ≤ overstep < timestep` holds after
every accumulate-and-drain cycle. -/
theorem c1_free_running_drain (w : World) (o0 : ℕ) (ho : w.clock.overstep = o0)
    (hlt : o0 < timestep) (hs : w.steppingEnabled = false) (ds : List ℕ) :
    (runFrames w ds).frameCount = w.frameCount + (ds.sum + o0) / timestep ∧
    (runFrames w ds).clock.overstep = (ds.sum + o0) % timestep ∧
    (runFrames w ds).clock.overstep < timestep := by
  obtain ⟨hf, hov⟩ := runFrames_spec ds w hs (ho ▸ hlt)
  refine ⟨?_, ?_, ?_⟩
  · rw [hf, ho, Nat.add_comm o0 ds.sum]
  · rw [hov, ho, Nat.add_comm o0 ds.sum]
  · rw [hov]
    exact Nat.mod_lt _ (by simp [timestep])

/-- Witness for C1 at a concrete input: initial overstep `1`, two frames of
`20000000` and `11250000` nanoseconds. -/
theorem c1_free_running_drain_witness :
    (runFrames emptyWorld [20000000, 11250000]).frameCount
        = emptyWorld.frameCount + ([20000000, 11250000].sum + 0) / timestep ∧
    (runFrames emptyWorld [20000000, 11250000]).clock.overstep
        = ([20000000, 11250000].sum + 0) % timestep ∧
    (runFrames emptyWorld [20000000, 11250000]).clock.overstep < timestep :=
  c1_free_running_drain emptyWorld 0 rfl (by simp [timestep]) rfl [20000000, 11250000]

/-! ### Claim C3: single-pulse stepping -/

theorem stepCustomSchedule_clock (w : World) : (stepCustomSchedule w).clock = w.clock := by
  unfold stepCustomSchedule
  simp [customMain_clock]

theorem stepCustomSchedule_frameCount (w : World) :
    (stepCustomSchedule w).frameCount = w.frameCount + 1 := by
  unfold stepCustomSchedule
  simp [customMain_frameCount]

theorem stepCustomSchedule_iterate_clock (N : ℕ) (w : World) :
    (stepCustomSchedule^[N] w).clock = w.clock := by
  induction N with
  | zero => rfl
  | succ n ih =>
    rw [Function.iterate_succ_apply', stepCustomSchedule_clock, ih]

theorem stepCustomSchedule_iterate_frameCount (N : ℕ) (w : World) :
    (stepCustomSchedule^[N] w).frameCount = w.frameCount + N := by
  induction N with
  | zero => rfl
  | succ n ih =>
    rw [Function.iterate_succ_apply', stepCustomSchedule_frameCount, ih]
    omega

/-- Counterexample to C3 as stated: with stepping enabled, a render frame whose
virtual delta is 5 leaves the overstep at 0 — the elapsed time is discarded by
the early return of `run_custom_schedule`, not accumulated into the overstep. -/
theorem c3_counterexample :
    ¬ (runCustomSchedule steppingWorld).clock.overstep
        = steppingWorld.clock.overstep + steppingWorld.virtualDelta := by
  have h : runCustomSchedule steppingWorld = steppingWorld := by
    unfold runCustomSchedule
    rw [if_pos (show steppingWorld.steppingEnabled = true by rfl)]
  rw [h]
  simp [steppingWorld, emptyWorld, freshClock]

/-- C3 (amended): while stepping is enabled, `run_custom_schedule` returns
early, so a render frame changes nothing at all — in particular the frame's
elapsed time is discarded rather than accumulated into the overstep; and N
explicit single-tick requests run `CustomMain` exactly N times (visible as N
`FrameCount` increments) while leaving the custom clock, overstep included,
unmodified. -/
theorem c3_single_pulse (w : World) (hs : w.steppingEnabled = true) (N : ℕ) :
    runCustomSchedule w = w ∧
    (stepCustomSchedule^[N] w).frameCount = w.frameCount + N ∧
    (stepCustomSchedule^[N] w).clock = w.clock := by
  refine ⟨?_, stepCustomSchedule_iterate_frameCount N w,
    stepCustomSchedule_iterate_clock N w⟩
  unfold runCustomSchedule
  rw [if_pos hs]

/-- Witness for C3 (amended) at the concrete stepping world with 3 requests. -/
theorem c3_single_pulse_witness :
    runCustomSchedule steppingWorld = steppingWorld ∧
    (stepCustomSchedule^[3] steppingWorld).frameCount = steppingWorld.frameCount + 3 ∧
    (stepCustomSchedule^[3] steppingWorld).clock = steppingWorld.clock :=
  c3_single_pulse steppingWorld rfl 3

/-! ### Vector lemmas -/

namespace Vec3

@[simp] theorem add_x (a b : Vec3) : (a + b).x = a.x + b.x := rfl
@[simp] theorem add_y (a b : Vec3) : (a + b).y = a.y + b.y := rfl
@[simp] theorem add_z (a b : Vec3) : (a + b).z = a.z + b.z := rfl
@[simp] theorem sub_x (a b : Vec3) : (a - b).x = a.x - b.x := rfl
@[simp] theorem sub_y (a b : Vec3) : (a - b).y = a.y - b.y := rfl
@[simp] theorem sub_z (a b : Vec3) : (a - b).z = a.z - b.z := rfl
@[simp] theorem smul_x (c : ℝ) (v : Vec3) : (c • v).x = c * v.x := rfl
@[simp] theorem smul_y (c : ℝ) (v : Vec3) : (c • v).y = c * v.y := rfl
@[simp] theorem smul_z (c : ℝ) (v : Vec3) : (c • v).z = c * v.z := rfl
@[simp] theorem zero_x : (0 : Vec3).x = 0 := rfl
@[simp] theorem zero_y : (0 : Vec3).y = 0 := rfl
@[simp] theorem zero_z : (0 : Vec3).z = 0 := rfl

theorem normSq_nonneg (v : Vec3) : 0 ≤ v.normSq := by
  simp only [normSq]
  nlinarith [mul_self_nonneg v.x, mul_self_nonneg v.y, mul_self_nonneg v.z]

theorem length_nonneg (v : Vec3) : 0 ≤ v.length :=
  Real.sqrt_nonneg _

theorem length_sq (v : Vec3) : v.length ^ 2 = v.normSq :=
  Real.sq_sqrt (normSq_nonneg v)

theorem normSq_eq_zero_iff (v : Vec3) : v.normSq = 0 ↔ v = 0 := by
  constructor
  · intro h
    simp only [normSq] at h
    have hx : v.x = 0 := by nlinarith [sq_nonneg v.x, sq_nonneg v.y, sq_nonneg v.z]
    have hy : v.y = 0 := by nlinarith [sq_nonneg v.x, sq_nonneg v.y, sq_nonneg v.z]
    have hz : v.z = 0 := by nlinarith [sq_nonneg v.x, sq_nonneg v.y, sq_nonneg v.z]
    ext <;> simpa
  · intro h
    subst h
    simp [normSq]

theorem length_eq_zero_iff (v : Vec3) : v.length = 0 ↔ v = 0 := by
  rw [length, Real.sqrt_eq_zero (normSq_nonneg v), normSq_eq_zero_iff]

theorem length_pos (v : Vec3) (h : v ≠ 0) : 0 < v.length :=
  lt_of_le_of_ne (length_nonneg v) (fun he => h ((length_eq_zero_iff v).mp he.symm))

theorem normSq_smul (c : ℝ) (v : Vec3) : (c • v).normSq = c ^ 2 * v.normSq := by
  simp only [normSq, smul_x, smul_y, smul_z]
  ring

theorem length_smul (c : ℝ) (v : Vec3) : (c • v).length = |c| * v.length := by
  rw [length, normSq_smul, Real.sqrt_mul (sq_nonneg c), Real.sqrt_sq_eq_abs, length]

theorem length_smul_of_nonneg (c : ℝ) (hc : 0 ≤ c) (v : Vec3) :
    (c • v).length = c * v.length := by
  rw [length_smul, abs_of_nonneg hc]

theorem dot_sq_le (a b : Vec3) : a.dot b ^ 2 ≤ a.normSq * b.normSq := by
  simp only [dot, normSq]
  nlinarith [sq_nonneg (a.x * b.y - a.y * b.x), sq_nonneg (a.x * b.z - a.z * b.x),
    sq_nonneg (a.y * b.z - a.z * b.y)]

theorem abs_dot_le (a b : Vec3) : |a.dot b| ≤ a.length * b.length := by
  rw [← Real.sqrt_sq_eq_abs, length, length, ← Real.sqrt_mul (normSq_nonneg a)]
  exact Real.sqrt_le_sqrt (dot_sq_le a b)

theorem dot_le_length_mul (a b : Vec3) : a.dot b ≤ a.length * b.length :=
  le_trans (le_abs_self _) (abs_dot_le a b)

theorem normSq_add (a b : Vec3) : (a + b).normSq = a.normSq + 2 * a.dot b + b.normSq := by
  simp only [normSq, dot, add_x, add_y, add_z]
  ring

theorem length_add_le (a b : Vec3) : (a + b).length ≤ a.length + b.length := by
  have h2 : (a + b).normSq ≤ (a.length + b.length) ^ 2 := by
    rw [normSq_add]
    have := dot_le_length_mul a b
    have ha := length_sq a
    have hb := length_sq b
    nlinarith
  calc (a + b).length = Real.sqrt (a + b).normSq := rfl
    _ ≤ Real.sqrt ((a.length + b.length) ^ 2) := Real.sqrt_le_sqrt h2
    _ = a.length + b.length :=
        Real.sqrt_sq (add_nonneg (length_nonneg a) (length_nonneg b))

theorem normSq_proj (v n : Vec3) (hn : n.normSq = 1) :
    (v - v.dot n • n).normSq = v.normSq - v.dot n ^ 2 := by
  simp only [normSq, dot, sub_x, sub_y, sub_z, smul_x, smul_y, smul_z] at hn ⊢
  nlinarith [hn]

theorem length_proj_le (v n : Vec3) (hn : n.normSq = 1) :
    (v - v.dot n • n).length ≤ v.length := by
  rw [length, length]
  apply Real.sqrt_le_sqrt
  rw [normSq_proj v n hn]
  nlinarith [sq_nonneg (v.dot n)]

@[simp] theorem length_zero : (0 : Vec3).length = 0 := by
  rw [length]
  simp [normSq]

@[simp] theorem sub_self (v : Vec3) : v - v = 0 := by
  ext <;> simp

@[simp] theorem add_sub_cancel_left (a b : Vec3) : a + b - a = b := by
  ext <;> simp

@[simp] theorem zero_smul (v : Vec3) : (0 : ℝ) • v = 0 := by
  ext <;> simp

@[simp] theorem add_zero (v : Vec3) : v + 0 = v := by
  ext <;> simp

theorem length_unit_of_normSq_one (n : Vec3) (hn : n.normSq = 1) : n.length = 1 := by
  rw [length, hn, Real.sqrt_one]

theorem sub_triangle (a b c : Vec3) : (a - c).length ≤ (a - b).length + (b - c).length := by
  have h : a - c = (a - b) + (b - c) := by ext <;> simp <;> ring
  rw [h]
  exact length_add_le _ _

end Vec3

theorem dir3New_none_iff (v : Vec3) : dir3New v = none ↔ v = 0 := by
  unfold dir3New
  split <;> simp_all

theorem dir3New_some (v u : Vec3) (h : dir3New v = some u) :
    v ≠ 0 ∧ u = (Vec3.length v)⁻¹ • v := by
  unfold dir3New at h
  split at h
  · exact absurd h (by simp)
  · exact ⟨by assumption, by injection h with h'; exact h'.symm⟩

theorem dir3New_length (v u : Vec3) (h : dir3New v = some u) : u.length = 1 := by
  obtain ⟨hv, hu⟩ := dir3New_some v u h
  have hl : 0 < v.length := Vec3.length_pos v hv
  rw [hu, Vec3.length_smul, abs_of_nonneg (le_of_lt (inv_pos.mpr hl))]
  field_simp

/-! ### Mover iteration lemmas -/

theorem skin_width_pos : (0 : ℝ) < SKIN_WIDTH := by
  rw [SKIN_WIDTH]
  norm_num

theorem nudge_nil (n : Vec3) (pv : Vec3) : nudge n [] pv = pv := rfl

theorem nudge_cons (n p : Vec3) (ps : List Vec3) (pv : Vec3) :
    nudge n (p :: ps) pv
      = nudge n ps (if (0.99 : ℝ) < Vec3.dot n p then pv + (0.01 : ℝ) • n else pv) := by
  simp only [nudge, List.foldl_cons]

theorem nudgeCount_cons (n p : Vec3) (ps : List Vec3) :
    nudgeCount n (p :: ps)
      = nudgeCount n ps + (if (0.99 : ℝ) < Vec3.dot n p then 1 else 0) := by
  simp only [nudgeCount, List.countP_cons]
  split <;> simp_all

theorem nudge_length_le (n : Vec3) (hn : n.normSq = 1) (planes : List Vec3) (pv : Vec3) :
    (nudge n planes pv).length ≤ pv.length + 0.01 * nudgeCount n planes := by
  induction planes generalizing pv with
  | nil =>
    simp [nudge_nil, nudgeCount]
  | cons p ps ih =>
    rw [nudge_cons, nudgeCount_cons]
    by_cases hc : (0.99 : ℝ) < Vec3.dot n p
    · rw [if_pos hc, if_pos hc]
      have h1 := ih (pv + (0.01 : ℝ) • n)
      have h2 : (pv + (0.01 : ℝ) • n).length ≤ pv.length + 0.01 := by
        have := Vec3.length_add_le pv ((0.01 : ℝ) • n)
        rw [Vec3.length_smul_of_nonneg (0.01 : ℝ) (by norm_num) n,
          Vec3.length_unit_of_normSq_one n hn] at this
        linarith
      push_cast
      linarith
    · rw [if_neg hc, if_neg hc]
      have h1 := ih pv
      push_cast
      linarith

theorem moveIter_dirNone (oracle : Oracle) (st : MoveState) (h : st.dirRes = none) :
    moveIter oracle st = ({ st with bounces := st.bounces + 1 }, false) := by
  unfold moveIter
  simp only [h]

theorem moveIter_noHit (oracle : Oracle) (st : MoveState) (dir : Vec3)
    (h1 : st.dirRes = some dir)
    (h2 : oracle ⟨st.pos, dir, st.dist + SKIN_WIDTH⟩ = none) :
    moveIter oracle st
      = ({ st with bounces := st.bounces + 1, pos := st.pos + st.dist • dir }, false) := by
  unfold moveIter
  simp only [h1, h2]

theorem moveIter_farHit (oracle : Oracle) (st : MoveState) (dir : Vec3) (hit : SweepHit)
    (h1 : st.dirRes = some dir)
    (h2 : oracle ⟨st.pos, dir, st.dist + SKIN_WIDTH⟩ = some hit)
    (h3 : st.dist ≤ hit.toi) :
    moveIter oracle st
      = ({ st with
            bounces := st.bounces + 1
            hits := st.hits + 1
            pos := st.pos + max (hit.toi - SKIN_WIDTH) 0 • dir }, false) := by
  unfold moveIter
  simp only [h1, h2]
  rw [if_pos h3]

theorem moveIter_blockBreak (oracle : Oracle) (st : MoveState) (dir : Vec3) (hit : SweepHit)
    (h1 : st.dirRes = some dir)
    (h2 : oracle ⟨st.pos, dir, st.dist + SKIN_WIDTH⟩ = some hit)
    (h3 : ¬ st.dist ≤ hit.toi)
    (h4 : Vec3.dot (projectedOf st.dist dir hit) st.startDir ≤ 0) :
    moveIter oracle st
      = ({ st with
            bounces := st.bounces + 1
            hits := st.hits + 1
            pos := st.pos + max (hit.toi - SKIN_WIDTH) 0 • dir }, false) := by
  unfold moveIter
  simp only [h1, h2]
  rw [if_neg h3]
  by_cases h5 : SKIN_WIDTH ≤ hit.toi
  · rw [if_pos h5, if_pos h4]
    have hmax : max (hit.toi - SKIN_WIDTH) 0 = hit.toi - SKIN_WIDTH :=
      max_eq_left (by linarith)
    rw [hmax]
  · rw [if_neg h5, if_pos h4]
    have hmax : max (hit.toi - SKIN_WIDTH) 0 = 0 := max_eq_right (by linarith)
    rw [hmax]
    simp

theorem moveIter_blockContinue (oracle : Oracle) (st : MoveState) (dir : Vec3) (hit : SweepHit)
    (h1 : st.dirRes = some dir)
    (h2 : oracle ⟨st.pos, dir, st.dist + SKIN_WIDTH⟩ = some hit)
    (h3 : ¬ st.dist ≤ hit.toi)
    (h4 : ¬ Vec3.dot (projectedOf st.dist dir hit) st.startDir ≤ 0) :
    moveIter oracle st
      = ({ st with
            bounces := st.bounces + 1
            hits := st.hits + 1
            pos := st.pos + max (hit.toi - SKIN_WIDTH) 0 • dir
            planes := st.planes ++ [hit.normal]
            dirRes := dir3New (nudge hit.normal st.planes (projectedOf st.dist dir hit))
            dist := (nudge hit.normal st.planes (projectedOf st.dist dir hit)).length
            nudges := st.nudges + nudgeCount hit.normal st.planes }, true) := by
  unfold moveIter
  simp only [h1, h2]
  rw [if_neg h3]
  by_cases h5 : SKIN_WIDTH ≤ hit.toi
  · rw [if_pos h5, if_neg h4]
    have hmax : max (hit.toi - SKIN_WIDTH) 0 = hit.toi - SKIN_WIDTH :=
      max_eq_left (by linarith)
    rw [hmax]
  · rw [if_neg h5, if_neg h4]
    have hmax : max (hit.toi - SKIN_WIDTH) 0 = 0 := max_eq_right (by linarith)
    rw [hmax]
    simp

theorem moveIter_bounces (oracle : Oracle) (st : MoveState) :
    (moveIter oracle st).1.bounces = st.bounces + 1 := by
  cases hdir : st.dirRes with
  | none => rw [moveIter_dirNone oracle st hdir]
  | some dir =>
    cases horacle : oracle ⟨st.pos, dir, st.dist + SKIN_WIDTH⟩ with
    | none => rw [moveIter_noHit oracle st dir hdir horacle]
    | some hit =>
      by_cases hfar : st.dist ≤ hit.toi
      · rw [moveIter_farHit oracle st dir hit hdir horacle hfar]
      · by_cases hproj : Vec3.dot (projectedOf st.dist dir hit) st.startDir ≤ 0
        · rw [moveIter_blockBreak oracle st dir hit hdir horacle hfar hproj]
        · rw [moveIter_blockContinue oracle st dir hit hdir horacle hfar hproj]

/-- One iteration consumes its move out of the remaining distance, up to
`0.01` of growth per anti-jitter nudge, and preserves the loop invariants
(`0 ≤ dist`, any direction present is a unit vector). -/
theorem moveIter_spec (oracle : Oracle) (hor : OracleValid oracle) (st : MoveState)
    (hd : 0 ≤ st.dist) (hu : ∀ d, st.dirRes = some d → d.length = 1) :
    ∃ k : ℕ,
      (moveIter oracle st).1.nudges = st.nudges + k ∧
      0 ≤ (moveIter oracle st).1.dist ∧
      (∀ d, (moveIter oracle st).1.dirRes = some d → d.length = 1) ∧
      ((moveIter oracle st).1.pos - st.pos).length
          + (if (moveIter oracle st).2 = true then (moveIter oracle st).1.dist else 0)
        ≤ st.dist + 0.01 * k := by
  cases hdir : st.dirRes with
  | none =>
    rw [moveIter_dirNone oracle st hdir]
    refine ⟨0, rfl, hd, fun d hdd => hu d hdd, ?_⟩
    simp [hd]
  | some dir =>
    have hudir : dir.length = 1 := hu dir hdir
    cases horacle : oracle ⟨st.pos, dir, st.dist + SKIN_WIDTH⟩ with
    | none =>
      rw [moveIter_noHit oracle st dir hdir horacle]
      refine ⟨0, rfl, hd, fun d hdd => hu d hdd, ?_⟩
      simp only [Vec3.add_sub_cancel_left, Bool.false_eq_true, if_false]
      rw [Vec3.length_smul_of_nonneg st.dist hd dir, hudir]
      simp
    | some hit =>
      obtain ⟨htoi0, htoiLe, hnormal⟩ := hor _ _ horacle
      simp only at htoiLe
      have hskin := skin_width_pos
      have hmax0 : 0 ≤ max (hit.toi - SKIN_WIDTH) 0 := le_max_right _ _
      by_cases hfar : st.dist ≤ hit.toi
      · rw [moveIter_farHit oracle st dir hit hdir horacle hfar]
        refine ⟨0, rfl, hd, fun d hdd => hu d hdd, ?_⟩
        simp only [Vec3.add_sub_cancel_left, Bool.false_eq_true, if_false]
        rw [Vec3.length_smul_of_nonneg _ hmax0 dir, hudir]
        have : max (hit.toi - SKIN_WIDTH) 0 ≤ st.dist :=
          max_le (by linarith) hd
        linarith
      · have hmaxle : max (hit.toi - SKIN_WIDTH) 0 ≤ st.dist :=
          max_le (by linarith) hd
        by_cases hproj : Vec3.dot (projectedOf st.dist dir hit) st.startDir ≤ 0
        · rw [moveIter_blockBreak oracle st dir hit hdir horacle hfar hproj]
          refine ⟨0, rfl, hd, fun d hdd => hu d hdd, ?_⟩
          simp only [Vec3.add_sub_cancel_left, Bool.false_eq_true, if_false]
          rw [Vec3.length_smul_of_nonneg _ hmax0 dir, hudir]
          linarith
        · rw [moveIter_blockContinue oracle st dir hit hdir horacle hfar hproj]
          refine ⟨nudgeCount hit.normal st.planes, rfl, Vec3.length_nonneg _,
            ?_, ?_⟩
          · intro d hdd
            exact dir3New_length _ d hdd
          · simp only [Vec3.add_sub_cancel_left, eq_self_iff_true, if_true]
            rw [Vec3.length_smul_of_nonneg _ hmax0 dir, hudir]
            have h1 : (nudge hit.normal st.planes (projectedOf st.dist dir hit)).length
                ≤ (projectedOf st.dist dir hit).length
                  + 0.01 * nudgeCount hit.normal st.planes :=
              nudge_length_le hit.normal hnormal st.planes _
            have h2 : (projectedOf st.dist dir hit).length
                ≤ ((st.dist - max (hit.toi - SKIN_WIDTH) 0) • dir).length := by
              unfold projectedOf
              exact Vec3.length_proj_le _ hit.normal hnormal
            have h3 : ((st.dist - max (hit.toi - SKIN_WIDTH) 0) • dir).length
                = st.dist - max (hit.toi - SKIN_WIDTH) 0 := by
              rw [Vec3.length_smul_of_nonneg _ (by linarith) dir, hudir]
              ring
            linarith

theorem moveLoop_zero (oracle : Oracle) (st : MoveState) : moveLoop oracle 0 st = st := rfl

theorem moveLoop_succ (oracle : Oracle) (fuel : ℕ) (st : MoveState) :
    moveLoop oracle (fuel + 1) st
      = if (moveIter oracle st).2 then moveLoop oracle fuel (moveIter oracle st).1
        else (moveIter oracle st).1 := rfl

theorem moveLoop_bounces (oracle : Oracle) (fuel : ℕ) (st : MoveState) :
    (moveLoop oracle fuel st).bounces ≤ st.bounces + fuel := by
  induction fuel generalizing st with
  | zero => simp [moveLoop_zero]
  | succ n ih =>
    rw [moveLoop_succ]
    by_cases hc : (moveIter oracle st).2 = true
    · rw [if_pos hc]
      have := ih (moveIter oracle st).1
      rw [moveIter_bounces] at this
      omega
    · rw [if_neg hc]
      rw [moveIter_bounces]
      omega

/-- The accumulated translation of the bounce loop never exceeds the remaining
distance it started with, plus `0.01` per anti-jitter nudge that fired. -/
theorem moveLoop_displacement (oracle : Oracle) (hor : OracleValid oracle) (fuel : ℕ)
    (st : MoveState) (hd : 0 ≤ st.dist) (hu : ∀ d, st.dirRes = some d → d.length = 1) :
    ∃ k : ℕ,
      (moveLoop oracle fuel st).nudges = st.nudges + k ∧
      ((moveLoop oracle fuel st).pos - st.pos).length ≤ st.dist + 0.01 * k := by
  induction fuel generalizing st with
  | zero =>
    refine ⟨0, rfl, ?_⟩
    simp [moveLoop_zero, hd]
  | succ n ih =>
    obtain ⟨k1, hn1, hd1, hu1, hb1⟩ := moveIter_spec oracle hor st hd hu
    rw [moveLoop_succ]
    by_cases hc : (moveIter oracle st).2 = true
    · rw [if_pos hc]
      rw [if_pos hc] at hb1
      obtain ⟨k2, hn2, hb2⟩ := ih (moveIter oracle st).1 hd1 hu1
      refine ⟨k1 + k2, ?_, ?_⟩
      · rw [hn2, hn1]
        omega
      · have htri := Vec3.sub_triangle (moveLoop oracle n (moveIter oracle st).1).pos
          (moveIter oracle st).1.pos st.pos
        push_cast
        push_cast at hb2
        linarith
    · rw [if_neg hc]
      rw [if_neg hc] at hb1
      exact ⟨k1, hn1, by linarith⟩

theorem moveCharacter_bounces (oracle : Oracle) (dt : ℝ) (b : Body) :
    (moveCharacter oracle dt b).bounces ≤ MAX_BOUNCES := by
  unfold moveCharacter
  cases hdir : dir3New b.velocity with
  | none => simp [MAX_BOUNCES]
  | some startDir =>
    simp only
    have := moveLoop_bounces oracle MAX_BOUNCES
      { pos := b.pos, dirRes := some startDir, dist := Vec3.length b.velocity * dt,
        startDir := startDir, planes := [], bounces := 0, hits := 0, nudges := 0 }
    simpa using this

/-- Displacement bound for a whole body move: at most the requested distance
plus `0.01` per anti-jitter nudge that fired during the tick. -/
theorem moveCharacter_displacement (oracle : Oracle) (hor : OracleValid oracle)
    (dt : ℝ) (hdt : 0 ≤ dt) (b : Body) :
    ((moveCharacter oracle dt b).body.pos - b.pos).length
      ≤ b.velocity.length * dt + 0.01 * (moveCharacter oracle dt b).nudges := by
  unfold moveCharacter
  cases hdir : dir3New b.velocity with
  | none =>
    simp only
    have : (0 : ℝ) ≤ b.velocity.length * dt :=
      mul_nonneg (Vec3.length_nonneg _) hdt
    simpa using this
  | some startDir =>
    simp only
    set st0 : MoveState :=
      { pos := b.pos, dirRes := some startDir, dist := Vec3.length b.velocity * dt,
        startDir := startDir, planes := [], bounces := 0, hits := 0, nudges := 0 } with hst0
    have hd0 : 0 ≤ st0.dist := mul_nonneg (Vec3.length_nonneg _) hdt
    have hu0 : ∀ d, st0.dirRes = some d → d.length = 1 := by
      intro d hdd
      simp only [hst0] at hdd
      injection hdd with h'
      subst h'
      exact dir3New_length _ _ hdir
    obtain ⟨k, hk, hb⟩ := moveLoop_displacement oracle hor MAX_BOUNCES st0 hd0 hu0
    have hk0 : (moveLoop oracle MAX_BOUNCES st0).nudges = k := by
      rw [hk]
      simp [hst0]
    rw [hk0] at *
    simpa [hst0] using hb

/-! ### Evaluation helpers for concrete runs -/

theorem length_eval (v : Vec3) (r : ℝ) (hr : 0 ≤ r) (h : v.normSq = r ^ 2) :
    v.length = r := by
  rw [Vec3.length, h, Real.sqrt_sq hr]

theorem dir3New_eval (v : Vec3) (r : ℝ) (hr : 0 < r) (h : v.length = r) :
    dir3New v = some (r⁻¹ • v) := by
  have hv : v ≠ 0 := by
    intro h0
    rw [h0, Vec3.length_zero] at h
    linarith
  unfold dir3New
  rw [if_neg hv, h]

theorem moveLoop_eval_cont (oracle : Oracle) (fuel : ℕ) (st st' : MoveState)
    (h : moveIter oracle st = (st', true)) :
    moveLoop oracle (fuel + 1) st = moveLoop oracle fuel st' := by
  rw [moveLoop_succ, h]
  simp

theorem moveLoop_eval_break (oracle : Oracle) (fuel : ℕ) (st st' : MoveState)
    (h : moveIter oracle st = (st', false)) :
    moveLoop oracle (fuel + 1) st = st' := by
  rw [moveLoop_succ, h]
  simp

theorem noneOracle_valid : OracleValid noneOracle := by
  intro q h hq
  simp [noneOracle] at hq

/-! ### Claims C8 and C4 -/

/-- C8: in every tick the bounce loop runs at most `MAX_BOUNCES = 5` iterations
(the model is a total function, so it always terminates), and exhausting the
iteration budget simply keeps the state accumulated so far — the partial
translation is retained rather than iterating further. -/
theorem c8_bounded_iterations (oracle : Oracle) (dt : ℝ) (b : Body) :
    (moveCharacter oracle dt b).bounces ≤ MAX_BOUNCES ∧
    (∀ st : MoveState, moveLoop oracle 0 st = st) :=
  ⟨moveCharacter_bounces oracle dt b, fun _ => rfl⟩

/-- C4 (amended): the bounce count of a tick is bounded by 5, and the distance
between the positions after and before the tick is at most the requested
distance `|velocity| * dt` plus `0.01` for each anti-jitter nudge that fired
during the tick (without that correction term the bound is false, see the
counterexample). -/
theorem c4_no_overshoot (oracle : Oracle) (hor : OracleValid oracle)
    (dt : ℝ) (hdt : 0 ≤ dt) (b : Body) :
    (moveCharacter oracle dt b).bounces ≤ MAX_BOUNCES ∧
    ((moveCharacter oracle dt b).body.pos - b.pos).length
      ≤ b.velocity.length * dt + 0.01 * (moveCharacter oracle dt b).nudges :=
  ⟨moveCharacter_bounces oracle dt b, moveCharacter_displacement oracle hor dt hdt b⟩

/-- Witness for C4 (amended) on the empty scene. -/
theorem c4_no_overshoot_witness :
    (moveCharacter noneOracle 1 ⟨0, 0⟩).bounces ≤ MAX_BOUNCES ∧
    ((moveCharacter noneOracle 1 ⟨0, 0⟩).body.pos - (⟨0, 0⟩ : Body).pos).length
      ≤ (⟨0, 0⟩ : Body).velocity.length * 1
        + 0.01 * (moveCharacter noneOracle 1 ⟨0, 0⟩).nudges :=
  c4_no_overshoot noneOracle noneOracle_valid 1 (by norm_num) ⟨0, 0⟩

theorem moveCharacter_eval (oracle : Oracle) (dt : ℝ) (b : Body) (u : Vec3)
    (h : dir3New b.velocity = some u) :
    moveCharacter oracle dt b =
      ⟨⟨(moveLoop oracle MAX_BOUNCES
            ⟨b.pos, some u, b.velocity.length * dt, u, [], 0, 0, 0⟩).pos, b.velocity⟩,
        (moveLoop oracle MAX_BOUNCES
            ⟨b.pos, some u, b.velocity.length * dt, u, [], 0, 0, 0⟩).bounces,
        (moveLoop oracle MAX_BOUNCES
            ⟨b.pos, some u, b.velocity.length * dt, u, [], 0, 0, 0⟩).hits,
        (moveLoop oracle MAX_BOUNCES
            ⟨b.pos, some u, b.velocity.length * dt, u, [], 0, 0, 0⟩).nudges⟩ := by
  unfold moveCharacter
  rw [h]

theorem c4_len48 : (⟨0.48, 0, 0⟩ : Vec3).length = 0.48 :=
  length_eval _ _ (by norm_num) (by simp [Vec3.normSq]; norm_num)

theorem c4_len75 : (⟨0.0075, 0, 0⟩ : Vec3).length = 0.0075 :=
  length_eval _ _ (by norm_num) (by simp [Vec3.normSq]; norm_num)

theorem c4_lenP : (⟨0.0075, 0, -0.01⟩ : Vec3).length = 0.0125 :=
  length_eval _ _ (by norm_num) (by simp [Vec3.normSq]; norm_num)

theorem c4_dir48 : dir3New ⟨0.48, 0, 0⟩ = some ⟨1, 0, 0⟩ := by
  rw [dir3New_eval _ 0.48 (by norm_num) c4_len48]
  rw [show (0.48 : ℝ)⁻¹ • (⟨0.48, 0, 0⟩ : Vec3) = ⟨1, 0, 0⟩ from by ext <;> simp <;> norm_num]

theorem c4_dir75 : dir3New ⟨0.0075, 0, 0⟩ = some ⟨1, 0, 0⟩ := by
  rw [dir3New_eval _ 0.0075 (by norm_num) c4_len75]
  rw [show (0.0075 : ℝ)⁻¹ • (⟨0.0075, 0, 0⟩ : Vec3) = ⟨1, 0, 0⟩ from by
    ext <;> simp <;> norm_num]

theorem c4_dirP : dir3New ⟨0.0075, 0, -0.01⟩ = some ⟨0.6, 0, -0.8⟩ := by
  rw [dir3New_eval _ 0.0125 (by norm_num) c4_lenP]
  rw [show (0.0125 : ℝ)⁻¹ • (⟨0.0075, 0, -0.01⟩ : Vec3) = ⟨0.6, 0, -0.8⟩ from by
    ext <;> simp <;> norm_num]

theorem c4_proj : projectedOf 0.0075 ⟨1, 0, 0⟩ ⟨0, ⟨0, 0, -1⟩⟩ = ⟨0.0075, 0, 0⟩ := by
  unfold projectedOf
  rw [show max ((⟨0, ⟨0, 0, -1⟩⟩ : SweepHit).toi - SKIN_WIDTH) 0 = 0 from
    max_eq_right (by norm_num [SKIN_WIDTH])]
  ext <;> simp [Vec3.dot] <;> norm_num

theorem c4_iter1 : moveIter c4Oracle c4St0 = (c4St1, true) := by
  have horacle : c4Oracle ⟨c4St0.pos, ⟨1, 0, 0⟩, c4St0.dist + SKIN_WIDTH⟩
      = some ⟨0, ⟨0, 0, -1⟩⟩ := by
    unfold c4Oracle
    rw [if_pos ⟨rfl, by show (0 : ℝ) ≤ 0.0075 + SKIN_WIDTH; norm_num [SKIN_WIDTH]⟩]
  have h3 : ¬ c4St0.dist ≤ (⟨0, ⟨0, 0, -1⟩⟩ : SweepHit).toi := by
    show ¬ (0.0075 : ℝ) ≤ 0
    norm_num
  have h4 : ¬ Vec3.dot (projectedOf c4St0.dist ⟨1, 0, 0⟩ ⟨0, ⟨0, 0, -1⟩⟩) c4St0.startDir ≤ 0 := by
    show ¬ Vec3.dot (projectedOf 0.0075 ⟨1, 0, 0⟩ ⟨0, ⟨0, 0, -1⟩⟩) (⟨1, 0, 0⟩ : Vec3) ≤ 0
    rw [c4_proj]
    simp [Vec3.dot]
    norm_num
  rw [moveIter_blockContinue c4Oracle c4St0 ⟨1, 0, 0⟩ ⟨0, ⟨0, 0, -1⟩⟩ rfl horacle h3 h4]
  refine congrArg (fun s => (s, true)) ?_
  apply MoveState.ext
  · show c4St0.pos + max ((⟨0, ⟨0, 0, -1⟩⟩ : SweepHit).toi - SKIN_WIDTH) 0 • (⟨1, 0, 0⟩ : Vec3)
        = c4St1.pos
    rw [show max ((⟨0, ⟨0, 0, -1⟩⟩ : SweepHit).toi - SKIN_WIDTH) 0 = 0 from
      max_eq_right (by norm_num [SKIN_WIDTH])]
    simp only [c4St0, c4St1]
    ext <;> simp
  · show dir3New (nudge (⟨0, 0, -1⟩ : Vec3) c4St0.planes
        (projectedOf c4St0.dist ⟨1, 0, 0⟩ ⟨0, ⟨0, 0, -1⟩⟩)) = c4St1.dirRes
    rw [show c4St0.planes = ([] : List Vec3) from rfl, show c4St0.dist = (0.0075 : ℝ) from rfl,
      nudge_nil, c4_proj]
    exact c4_dir75
  · show (nudge (⟨0, 0, -1⟩ : Vec3) c4St0.planes
        (projectedOf c4St0.dist ⟨1, 0, 0⟩ ⟨0, ⟨0, 0, -1⟩⟩)).length = c4St1.dist
    rw [show c4St0.planes = ([] : List Vec3) from rfl, show c4St0.dist = (0.0075 : ℝ) from rfl,
      nudge_nil, c4_proj]
    exact c4_len75
  · rfl
  · rfl
  · rfl
  · rfl
  · rfl

theorem c4_nudged :
    nudge (⟨0, 0, -1⟩ : Vec3) [⟨0, 0, -1⟩] (⟨0.0075, 0, 0⟩ : Vec3) = ⟨0.0075, 0, -0.01⟩ := by
  rw [nudge_cons]
  rw [if_pos (by show (0.99 : ℝ) < Vec3.dot ⟨0, 0, -1⟩ ⟨0, 0, -1⟩; simp [Vec3.dot]; norm_num)]
  rw [nudge_nil]
  ext <;> simp <;> norm_num

theorem c4_iter2 : moveIter c4Oracle c4St1 = (c4St2, true) := by
  have horacle : c4Oracle ⟨c4St1.pos, ⟨1, 0, 0⟩, c4St1.dist + SKIN_WIDTH⟩
      = some ⟨0, ⟨0, 0, -1⟩⟩ := by
    unfold c4Oracle
    rw [if_pos ⟨rfl, by show (0 : ℝ) ≤ 0.0075 + SKIN_WIDTH; norm_num [SKIN_WIDTH]⟩]
  have h3 : ¬ c4St1.dist ≤ (⟨0, ⟨0, 0, -1⟩⟩ : SweepHit).toi := by
    show ¬ (0.0075 : ℝ) ≤ 0
    norm_num
  have h4 : ¬ Vec3.dot (projectedOf c4St1.dist ⟨1, 0, 0⟩ ⟨0, ⟨0, 0, -1⟩⟩) c4St1.startDir ≤ 0 := by
    show ¬ Vec3.dot (projectedOf 0.0075 ⟨1, 0, 0⟩ ⟨0, ⟨0, 0, -1⟩⟩) (⟨1, 0, 0⟩ : Vec3) ≤ 0
    rw [c4_proj]
    simp [Vec3.dot]
    norm_num
  rw [moveIter_blockContinue c4Oracle c4St1 ⟨1, 0, 0⟩ ⟨0, ⟨0, 0, -1⟩⟩ rfl horacle h3 h4]
  refine congrArg (fun s => (s, true)) ?_
  apply MoveState.ext
  · show c4St1.pos + max ((⟨0, ⟨0, 0, -1⟩⟩ : SweepHit).toi - SKIN_WIDTH) 0 • (⟨1, 0, 0⟩ : Vec3)
        = c4St2.pos
    rw [show max ((⟨0, ⟨0, 0, -1⟩⟩ : SweepHit).toi - SKIN_WIDTH) 0 = 0 from
      max_eq_right (by norm_num [SKIN_WIDTH])]
    simp only [c4St1, c4St2]
    ext <;> simp
  · show dir3New (nudge (⟨0, 0, -1⟩ : Vec3) c4St1.planes
        (projectedOf c4St1.dist ⟨1, 0, 0⟩ ⟨0, ⟨0, 0, -1⟩⟩)) = c4St2.dirRes
    rw [show c4St1.planes = [(⟨0, 0, -1⟩ : Vec3)] from rfl,
      show c4St1.dist = (0.0075 : ℝ) from rfl, c4_proj, c4_nudged]
    exact c4_dirP
  · show (nudge (⟨0, 0, -1⟩ : Vec3) c4St1.planes
        (projectedOf c4St1.dist ⟨1, 0, 0⟩ ⟨0, ⟨0, 0, -1⟩⟩)).length = c4St2.dist
    rw [show c4St1.planes = [(⟨0, 0, -1⟩ : Vec3)] from rfl,
      show c4St1.dist = (0.0075 : ℝ) from rfl, c4_proj, c4_nudged]
    exact c4_lenP
  · rfl
  · rfl
  · rfl
  · rfl
  · show c4St1.nudges + nudgeCount (⟨0, 0, -1⟩ : Vec3) c4St1.planes = c4St2.nudges
    rw [show c4St1.planes = [(⟨0, 0, -1⟩ : Vec3)] from rfl, nudgeCount_cons]
    rw [if_pos (by show (0.99 : ℝ) < Vec3.dot ⟨0, 0, -1⟩ ⟨0, 0, -1⟩; simp [Vec3.dot]; norm_num)]
    rfl

theorem c4_iter3 : moveIter c4Oracle c4St2 = (c4St3, false) := by
  have horacle : c4Oracle ⟨c4St2.pos, ⟨0.6, 0, -0.8⟩, c4St2.dist + SKIN_WIDTH⟩ = none := by
    unfold c4Oracle
    rw [if_neg]
    rintro ⟨hdir, -⟩
    have := congrArg Vec3.x hdir
    norm_num at this
  rw [moveIter_noHit c4Oracle c4St2 ⟨0.6, 0, -0.8⟩ rfl horacle]
  refine congrArg (fun s => (s, false)) ?_
  apply MoveState.ext
  · show c4St2.pos + c4St2.dist • (⟨0.6, 0, -0.8⟩ : Vec3) = c4St3.pos
    simp only [c4St2, c4St3]
    ext <;> simp <;> norm_num
  · rfl
  · rfl
  · rfl
  · rfl
  · rfl
  · rfl
  · rfl

theorem c4_run : (moveCharacter c4Oracle (1 / 64) c4Body).body.pos = ⟨0.0075, 0, -0.01⟩ := by
  have hdirv : dir3New c4Body.velocity = some ⟨1, 0, 0⟩ := c4_dir48
  rw [moveCharacter_eval c4Oracle (1 / 64) c4Body ⟨1, 0, 0⟩ hdirv]
  have hst0 : (⟨c4Body.pos, some ⟨1, 0, 0⟩, c4Body.velocity.length * (1 / 64),
      ⟨1, 0, 0⟩, [], 0, 0, 0⟩ : MoveState) = c4St0 := by
    have hd : c4Body.velocity.length * (1 / 64 : ℝ) = 0.0075 := by
      have h48 : c4Body.velocity.length = 0.48 := c4_len48
      rw [h48]
      norm_num
    apply MoveState.ext
    · rfl
    · rfl
    · exact hd
    · rfl
    · rfl
    · rfl
    · rfl
    · rfl
  rw [hst0]
  have hl1 : moveLoop c4Oracle MAX_BOUNCES c4St0 = moveLoop c4Oracle 4 c4St1 :=
    moveLoop_eval_cont c4Oracle 4 c4St0 c4St1 c4_iter1
  have hl2 : moveLoop c4Oracle 4 c4St1 = moveLoop c4Oracle 3 c4St2 :=
    moveLoop_eval_cont c4Oracle 3 c4St1 c4St2 c4_iter2
  have hl3 : moveLoop c4Oracle 3 c4St2 = c4St3 :=
    moveLoop_eval_break c4Oracle 2 c4St2 c4St3 c4_iter3
  rw [hl1, hl2, hl3]
  rfl

/-- Counterexample to C4 as stated: on the scene `c4Oracle` (a valid oracle)
the body `c4Body` requesting distance `0.48 * (1/64) = 0.0075` ends the tick
displaced by `0.0125 > 0.0075` — the anti-jitter nudge of lines 114-118 grows
the remaining distance, so the mover can overshoot the requested distance. -/
theorem c4_counterexample :
    OracleValid c4Oracle ∧
    c4Body.velocity.length * (1 / 64)
      < ((moveCharacter c4Oracle (1 / 64) c4Body).body.pos - c4Body.pos).length := by
  constructor
  · intro q h hq
    unfold c4Oracle at hq
    split_ifs at hq with hc
    · injection hq with hq'
      subst hq'
      refine ⟨le_refl 0, hc.2, ?_⟩
      norm_num [Vec3.normSq]
  · rw [c4_run]
    have hsub : (⟨0.0075, 0, -0.01⟩ : Vec3) - c4Body.pos = ⟨0.0075, 0, -0.01⟩ := by
      ext <;> simp [c4Body]
    rw [hsub, c4_lenP]
    have h48 : c4Body.velocity.length = 0.48 := c4_len48
    rw [h48]
    norm_num

/-! ### Claim C7: unobstructed straight-line travel -/

theorem lenE1 : (⟨1, 0, 0⟩ : Vec3).length = 1 :=
  length_eval _ _ (by norm_num) (by simp [Vec3.normSq])

/-- C7: when the very first sweep reports no hit, the body is translated by
exactly `direction * remaining_distance = dt • velocity` — it travels exactly
`|velocity| * dt` in the desired direction — and the loop stops after that
single iteration. -/
theorem c7_unobstructed (oracle : Oracle) (dt : ℝ) (hdt : 0 ≤ dt) (b : Body)
    (hv : b.velocity ≠ 0)
    (hnone : oracle ⟨b.pos, (b.velocity.length)⁻¹ • b.velocity,
        b.velocity.length * dt + SKIN_WIDTH⟩ = none) :
    (moveCharacter oracle dt b).body.pos = b.pos + dt • b.velocity ∧
    ((moveCharacter oracle dt b).body.pos - b.pos).length = b.velocity.length * dt ∧
    (moveCharacter oracle dt b).bounces = 1 := by
  have hu : dir3New b.velocity = some ((b.velocity.length)⁻¹ • b.velocity) := by
    unfold dir3New
    rw [if_neg hv]
  rw [moveCharacter_eval oracle dt b ((b.velocity.length)⁻¹ • b.velocity) hu]
  have hiter : moveIter oracle
      (⟨b.pos, some ((b.velocity.length)⁻¹ • b.velocity), b.velocity.length * dt,
        (b.velocity.length)⁻¹ • b.velocity, [], 0, 0, 0⟩ : MoveState)
      = (⟨b.pos + (b.velocity.length * dt) • ((b.velocity.length)⁻¹ • b.velocity),
          some ((b.velocity.length)⁻¹ • b.velocity), b.velocity.length * dt,
          (b.velocity.length)⁻¹ • b.velocity, [], 1, 0, 0⟩, false) := by
    rw [moveIter_noHit oracle _ ((b.velocity.length)⁻¹ • b.velocity) rfl hnone]
  have hloop := moveLoop_eval_break oracle 4 _ _ hiter
  rw [show moveLoop oracle MAX_BOUNCES
      (⟨b.pos, some ((b.velocity.length)⁻¹ • b.velocity), b.velocity.length * dt,
        (b.velocity.length)⁻¹ • b.velocity, [], 0, 0, 0⟩ : MoveState)
      = ⟨b.pos + (b.velocity.length * dt) • ((b.velocity.length)⁻¹ • b.velocity),
          some ((b.velocity.length)⁻¹ • b.velocity), b.velocity.length * dt,
          (b.velocity.length)⁻¹ • b.velocity, [], 1, 0, 0⟩ from hloop]
  have hl0 : b.velocity.length ≠ 0 := ne_of_gt (Vec3.length_pos _ hv)
  have hsm : (b.velocity.length * dt) • ((b.velocity.length)⁻¹ • b.velocity)
      = dt • b.velocity := by
    ext <;> simp <;> field_simp <;> ring
  refine ⟨?_, ?_, rfl⟩
  · show b.pos + (b.velocity.length * dt) • ((b.velocity.length)⁻¹ • b.velocity)
        = b.pos + dt • b.velocity
    rw [hsm]
  · show (b.pos + (b.velocity.length * dt) • ((b.velocity.length)⁻¹ • b.velocity)
        - b.pos).length = b.velocity.length * dt
    rw [hsm, Vec3.add_sub_cancel_left, Vec3.length_smul_of_nonneg dt hdt]
    ring

/-- Witness for C7 at the concrete body `c4Body` on the empty scene. -/
theorem c7_unobstructed_witness :
    (moveCharacter noneOracle 1 c4Body).body.pos = c4Body.pos + (1 : ℝ) • c4Body.velocity ∧
    ((moveCharacter noneOracle 1 c4Body).body.pos - c4Body.pos).length
      = c4Body.velocity.length * 1 ∧
    (moveCharacter noneOracle 1 c4Body).bounces = 1 :=
  c7_unobstructed noneOracle 1 (by norm_num) c4Body
    (by
      intro h
      have hx := congrArg Vec3.x h
      norm_num [c4Body] at hx)
    rfl

/-! ### Claim C6: degenerate velocities -/

/-- C6 (amended): a body with zero desired velocity is skipped entirely — its
position (indeed the whole body) is unchanged across any number of ticks; and
when the direction fails to normalize mid-run (a collapsed projected
velocity), the loop stops without moving further, keeping whatever partial
translation had accumulated before the collapse (which need not be zero, see
the counterexample). -/
theorem c6_zero_velocity_skip (oracle : Oracle) (dt : ℝ) (b : Body)
    (hv : b.velocity = 0) (n : ℕ) :
    (fun bd => (moveCharacter oracle dt bd).body)^[n] b = b ∧
    (∀ fuel : ℕ, ∀ st : MoveState, st.dirRes = none →
      (moveLoop oracle fuel st).pos = st.pos) := by
  constructor
  · have hone : ∀ bd : Body, bd.velocity = 0 → (moveCharacter oracle dt bd).body = bd := by
      intro bd hbd
      unfold moveCharacter
      rw [show dir3New bd.velocity = none from (dir3New_none_iff _).mpr hbd]
    induction n with
    | zero => rfl
    | succ m ih =>
      rw [Function.iterate_succ_apply', ih]
      exact hone b hv
  · intro fuel st hst
    cases fuel with
    | zero => rfl
    | succ m =>
      rw [moveLoop_eval_break oracle m st _ (moveIter_dirNone oracle st hst)]

/-- Witness for C6 (amended): a motionless body on the empty scene over 7
ticks. -/
theorem c6_zero_velocity_skip_witness :
    (fun bd => (moveCharacter noneOracle 1 bd).body)^[7] (⟨⟨0, 0, 0⟩, ⟨0, 0, 0⟩⟩ : Body)
        = (⟨⟨0, 0, 0⟩, ⟨0, 0, 0⟩⟩ : Body) ∧
    (∀ fuel : ℕ, ∀ st : MoveState, st.dirRes = none →
      (moveLoop noneOracle fuel st).pos = st.pos) :=
  c6_zero_velocity_skip noneOracle 1 ⟨⟨0, 0, 0⟩, ⟨0, 0, 0⟩⟩ rfl 7

theorem len128 : (⟨12.8, 0, 0⟩ : Vec3).length = 12.8 :=
  length_eval _ _ (by norm_num) (by simp [Vec3.normSq]; norm_num)

theorem dir128 : dir3New ⟨12.8, 0, 0⟩ = some ⟨1, 0, 0⟩ := by
  rw [dir3New_eval _ 12.8 (by norm_num) len128]
  rw [show (12.8 : ℝ)⁻¹ • (⟨12.8, 0, 0⟩ : Vec3) = ⟨1, 0, 0⟩ from by ext <;> simp <;> norm_num]

theorem c6_proj : projectedOf 0.2 ⟨1, 0, 0⟩ ⟨0.1, ⟨-1, 0, 0⟩⟩ = 0 := by
  unfold projectedOf
  rw [show max ((⟨0.1, ⟨-1, 0, 0⟩⟩ : SweepHit).toi - SKIN_WIDTH) 0 = 0.095 from by
    rw [max_eq_left (by norm_num [SKIN_WIDTH])]
    show (0.1 : ℝ) - SKIN_WIDTH = 0.095
    norm_num [SKIN_WIDTH]]
  ext <;> simp [Vec3.dot] <;> norm_num

theorem c6_run : (moveCharacter c6Oracle (1 / 64) wallBody).body.pos = ⟨0.095, 0, 0⟩ := by
  rw [moveCharacter_eval c6Oracle (1 / 64) wallBody ⟨1, 0, 0⟩ dir128]
  have hst0 : (⟨wallBody.pos, some ⟨1, 0, 0⟩, wallBody.velocity.length * (1 / 64),
      ⟨1, 0, 0⟩, [], 0, 0, 0⟩ : MoveState) = c6St0 := by
    apply MoveState.ext
    · rfl
    · rfl
    · show wallBody.velocity.length * (1 / 64 : ℝ) = c6St0.dist
      have h128 : wallBody.velocity.length = 12.8 := len128
      rw [h128]
      show (12.8 : ℝ) * (1 / 64) = 0.2
      norm_num
    · rfl
    · rfl
    · rfl
    · rfl
    · rfl
  rw [hst0]
  have horacle : c6Oracle ⟨c6St0.pos, ⟨1, 0, 0⟩, c6St0.dist + SKIN_WIDTH⟩
      = some ⟨0.1, ⟨-1, 0, 0⟩⟩ := by
    unfold c6Oracle
    rw [if_pos ⟨rfl, by show (0.1 : ℝ) ≤ 0.2 + SKIN_WIDTH; norm_num [SKIN_WIDTH]⟩]
  have h3 : ¬ c6St0.dist ≤ (⟨0.1, ⟨-1, 0, 0⟩⟩ : SweepHit).toi := by
    show ¬ (0.2 : ℝ) ≤ 0.1
    norm_num
  have h4 : Vec3.dot (projectedOf c6St0.dist ⟨1, 0, 0⟩ ⟨0.1, ⟨-1, 0, 0⟩⟩) c6St0.startDir ≤ 0 := by
    show Vec3.dot (projectedOf 0.2 ⟨1, 0, 0⟩ ⟨0.1, ⟨-1, 0, 0⟩⟩) (⟨1, 0, 0⟩ : Vec3) ≤ 0
    rw [c6_proj]
    simp [Vec3.dot]
  have hiter : moveIter c6Oracle c6St0
      = (⟨⟨0.095, 0, 0⟩, some ⟨1, 0, 0⟩, 0.2, ⟨1, 0, 0⟩, [], 1, 1, 0⟩, false) := by
    rw [moveIter_blockBreak c6Oracle c6St0 ⟨1, 0, 0⟩ ⟨0.1, ⟨-1, 0, 0⟩⟩ rfl horacle h3 h4]
    refine congrArg (fun s => (s, false)) ?_
    apply MoveState.ext
    · show c6St0.pos + max ((⟨0.1, ⟨-1, 0, 0⟩⟩ : SweepHit).toi - SKIN_WIDTH) 0 • (⟨1, 0, 0⟩ : Vec3)
          = _
      rw [show max ((⟨0.1, ⟨-1, 0, 0⟩⟩ : SweepHit).toi - SKIN_WIDTH) 0 = 0.095 from by
        rw [max_eq_left (by norm_num [SKIN_WIDTH])]
        show (0.1 : ℝ) - SKIN_WIDTH = 0.095
        norm_num [SKIN_WIDTH]]
      simp only [c6St0]
      ext <;> simp
    · rfl
    · rfl
    · rfl
    · rfl
    · rfl
    · rfl
    · rfl
  have hloop := moveLoop_eval_break c6Oracle 4 _ _ hiter
  rw [show moveLoop c6Oracle MAX_BOUNCES c6St0
      = ⟨⟨0.095, 0, 0⟩, some ⟨1, 0, 0⟩, 0.2, ⟨1, 0, 0⟩, [], 1, 1, 0⟩ from hloop]

/-- Counterexample to C6 as stated: driving `wallBody` head-on into the wall
`c6Oracle` (a valid scene) makes the projected velocity collapse to the zero
vector mid-loop, yet the tick does NOT leave the position unchanged — the body
keeps the partial advance `0.095` made before the collapse. -/
theorem c6_counterexample :
    OracleValid c6Oracle ∧
    projectedOf 0.2 ⟨1, 0, 0⟩ ⟨0.1, ⟨-1, 0, 0⟩⟩ = 0 ∧
    (moveCharacter c6Oracle (1 / 64) wallBody).body.pos ≠ wallBody.pos := by
  refine ⟨?_, c6_proj, ?_⟩
  · intro q h hq
    unfold c6Oracle at hq
    split_ifs at hq with hc
    · injection hq with hq'
      subst hq'
      refine ⟨by norm_num, hc.2, ?_⟩
      norm_num [Vec3.normSq]
  · rw [c6_run]
    intro h
    have hx := congrArg Vec3.x h
    norm_num [wallBody] at hx

/-! ### Claim C5: the blocking-contact advance -/

/-- C5 (amended): on a blocking contact (`toi < remaining distance`) the
iteration changes the position by exactly
`max (toi - skin_width) 0 • direction` — the advance statement executes iff
`toi ≥ skin_width` (not iff the advance amount is at least `skin_width`), so
the position actually changes iff `toi > skin_width`. -/
theorem c5_blocking_advance (oracle : Oracle) (st : MoveState) (dir : Vec3) (hit : SweepHit)
    (hdir : st.dirRes = some dir) (hu : dir.length = 1)
    (ho : oracle ⟨st.pos, dir, st.dist + SKIN_WIDTH⟩ = some hit)
    (hblock : ¬ st.dist ≤ hit.toi) :
    (moveIter oracle st).1.pos = st.pos + max (hit.toi - SKIN_WIDTH) 0 • dir ∧
    ((moveIter oracle st).1.pos ≠ st.pos ↔ SKIN_WIDTH < hit.toi) := by
  have hpos : (moveIter oracle st).1.pos = st.pos + max (hit.toi - SKIN_WIDTH) 0 • dir := by
    by_cases hproj : Vec3.dot (projectedOf st.dist dir hit) st.startDir ≤ 0
    · rw [moveIter_blockBreak oracle st dir hit hdir ho hblock hproj]
    · rw [moveIter_blockContinue oracle st dir hit hdir ho hblock hproj]
  refine ⟨hpos, ?_⟩
  rw [hpos]
  constructor
  · intro hne
    by_contra hle
    push_neg at hle
    apply hne
    rw [show max (hit.toi - SKIN_WIDTH) 0 = 0 from max_eq_right (by linarith)]
    simp
  · intro hlt heq
    have hm : max (hit.toi - SKIN_WIDTH) 0 = hit.toi - SKIN_WIDTH :=
      max_eq_left (by linarith)
    rw [hm] at heq
    have h0 : (hit.toi - SKIN_WIDTH) • dir = 0 := by
      have h' := congrArg (fun w => w - st.pos) heq
      simpa using h'
    have hlen := congrArg Vec3.length h0
    rw [Vec3.length_smul, hu, mul_one, Vec3.length_zero, abs_eq_zero] at hlen
    linarith

/-- Witness for C5 (amended) at the concrete state `c5St0` against the wall
at `0.008`. -/
theorem c5_blocking_advance_witness :
    (moveIter c5Oracle c5St0).1.pos
        = c5St0.pos + max (((⟨0.008, ⟨-1, 0, 0⟩⟩ : SweepHit).toi - SKIN_WIDTH)) 0
            • (⟨1, 0, 0⟩ : Vec3) ∧
    ((moveIter c5Oracle c5St0).1.pos ≠ c5St0.pos
      ↔ SKIN_WIDTH < (⟨0.008, ⟨-1, 0, 0⟩⟩ : SweepHit).toi) :=
  c5_blocking_advance c5Oracle c5St0 ⟨1, 0, 0⟩ ⟨0.008, ⟨-1, 0, 0⟩⟩ rfl lenE1
    (by
      unfold c5Oracle
      rw [if_pos ⟨rfl, by show (0.008 : ℝ) ≤ c5St0.dist + SKIN_WIDTH
                          show (0.008 : ℝ) ≤ 0.2 + SKIN_WIDTH
                          norm_num [SKIN_WIDTH]⟩])
    (by
      show ¬ (0.2 : ℝ) ≤ 0.008
      norm_num)

theorem c5_proj : projectedOf 0.2 ⟨1, 0, 0⟩ ⟨0.008, ⟨-1, 0, 0⟩⟩ = 0 := by
  unfold projectedOf
  rw [show max ((⟨0.008, ⟨-1, 0, 0⟩⟩ : SweepHit).toi - SKIN_WIDTH) 0 = 0.003 from by
    rw [max_eq_left (by norm_num [SKIN_WIDTH])]
    show (0.008 : ℝ) - SKIN_WIDTH = 0.003
    norm_num [SKIN_WIDTH]]
  ext <;> simp [Vec3.dot] <;> norm_num

theorem c5_run : (moveCharacter c5Oracle (1 / 64) wallBody).body.pos = ⟨0.003, 0, 0⟩ := by
  rw [moveCharacter_eval c5Oracle (1 / 64) wallBody ⟨1, 0, 0⟩ dir128]
  have hst0 : (⟨wallBody.pos, some ⟨1, 0, 0⟩, wallBody.velocity.length * (1 / 64),
      ⟨1, 0, 0⟩, [], 0, 0, 0⟩ : MoveState) = c5St0 := by
    apply MoveState.ext
    · rfl
    · rfl
    · show wallBody.velocity.length * (1 / 64 : ℝ) = c5St0.dist
      have h128 : wallBody.velocity.length = 12.8 := len128
      rw [h128]
      show (12.8 : ℝ) * (1 / 64) = 0.2
      norm_num
    · rfl
    · rfl
    · rfl
    · rfl
    · rfl
  rw [hst0]
  have horacle : c5Oracle ⟨c5St0.pos, ⟨1, 0, 0⟩, c5St0.dist + SKIN_WIDTH⟩
      = some ⟨0.008, ⟨-1, 0, 0⟩⟩ := by
    unfold c5Oracle
    rw [if_pos ⟨rfl, by show (0.008 : ℝ) ≤ 0.2 + SKIN_WIDTH; norm_num [SKIN_WIDTH]⟩]
  have h3 : ¬ c5St0.dist ≤ (⟨0.008, ⟨-1, 0, 0⟩⟩ : SweepHit).toi := by
    show ¬ (0.2 : ℝ) ≤ 0.008
    norm_num
  have h4 : Vec3.dot (projectedOf c5St0.dist ⟨1, 0, 0⟩ ⟨0.008, ⟨-1, 0, 0⟩⟩) c5St0.startDir
      ≤ 0 := by
    show Vec3.dot (projectedOf 0.2 ⟨1, 0, 0⟩ ⟨0.008, ⟨-1, 0, 0⟩⟩) (⟨1, 0, 0⟩ : Vec3) ≤ 0
    rw [c5_proj]
    simp [Vec3.dot]
  have hiter : moveIter c5Oracle c5St0
      = (⟨⟨0.003, 0, 0⟩, some ⟨1, 0, 0⟩, 0.2, ⟨1, 0, 0⟩, [], 1, 1, 0⟩, false) := by
    rw [moveIter_blockBreak c5Oracle c5St0 ⟨1, 0, 0⟩ ⟨0.008, ⟨-1, 0, 0⟩⟩ rfl horacle h3 h4]
    refine congrArg (fun s => (s, false)) ?_
    apply MoveState.ext
    · show c5St0.pos
          + max ((⟨0.008, ⟨-1, 0, 0⟩⟩ : SweepHit).toi - SKIN_WIDTH) 0 • (⟨1, 0, 0⟩ : Vec3)
          = _
      rw [show max ((⟨0.008, ⟨-1, 0, 0⟩⟩ : SweepHit).toi - SKIN_WIDTH) 0 = 0.003 from by
        rw [max_eq_left (by norm_num [SKIN_WIDTH])]
        show (0.008 : ℝ) - SKIN_WIDTH = 0.003
        norm_num [SKIN_WIDTH]]
      simp only [c5St0]
      ext <;> simp
    · rfl
    · rfl
    · rfl
    · rfl
    · rfl
    · rfl
    · rfl
  have hloop := moveLoop_eval_break c5Oracle 4 _ _ hiter
  rw [show moveLoop c5Oracle MAX_BOUNCES c5St0
      = ⟨⟨0.003, 0, 0⟩, some ⟨1, 0, 0⟩, 0.2, ⟨1, 0, 0⟩, [], 1, 1, 0⟩ from hloop]

/-- Counterexample to C5 as stated: against a wall at `toi = 0.008` the
advance amount is `max (0.008 - 0.005) 0 = 0.003 < skin_width`, yet the body
IS advanced (by `0.003`): the code's guard is `toi ≥ skin_width`, not
"advance amount ≥ skin_width". -/
theorem c5_counterexample :
    OracleValid c5Oracle ∧
    max ((0.008 : ℝ) - SKIN_WIDTH) 0 < SKIN_WIDTH ∧
    (moveCharacter c5Oracle (1 / 64) wallBody).body.pos = ⟨0.003, 0, 0⟩ ∧
    (moveCharacter c5Oracle (1 / 64) wallBody).body.pos ≠ wallBody.pos := by
  refine ⟨?_, ?_, c5_run, ?_⟩
  · intro q h hq
    unfold c5Oracle at hq
    split_ifs at hq with hc
    · injection hq with hq'
      subst hq'
      refine ⟨by norm_num, hc.2, ?_⟩
      norm_num [Vec3.normSq]
  · rw [max_eq_left (by norm_num [SKIN_WIDTH])]
    norm_num [SKIN_WIDTH]
  · rw [c5_run]
    intro h
    have hx := congrArg Vec3.x h
    norm_num [wallBody] at hx

/-! ### Claim C10: single-stepping never advances the clock -/

theorem setVelocity_oracle (w : World) : (setVelocity w).oracle = w.oracle := by
  unfold setVelocity
  split
  · split <;> rfl
  · rfl

theorem setVelocity_genericDelta (w : World) :
    (setVelocity w).genericDelta = w.genericDelta := by
  unfold setVelocity
  split
  · split <;> rfl
  · rfl

theorem setVelocity_positions (w : World) :
    (setVelocity w).bodies.map Body.pos = w.bodies.map Body.pos := by
  unfold setVelocity
  split
  · split
    · rfl
    · simp [List.map_map, Function.comp]
  · simp [List.map_map, Function.comp]

theorem dtSeconds_zero : dtSeconds 0 = 0 := by
  unfold dtSeconds
  simp

/-- A tick observed with a zero delta computes a zero travel distance and
leaves the body where it is (on any valid scene). -/
theorem moveCharacter_zero_dt (oracle : Oracle) (hor : OracleValid oracle) (b : Body) :
    (moveCharacter oracle 0 b).body.pos = b.pos := by
  cases hdir : dir3New b.velocity with
  | none =>
    unfold moveCharacter
    rw [hdir]
  | some u =>
    rw [moveCharacter_eval oracle 0 b u hdir]
    have hd0 : b.velocity.length * (0 : ℝ) = 0 := mul_zero _
    cases ho : oracle ⟨b.pos, u, b.velocity.length * 0 + SKIN_WIDTH⟩ with
    | none =>
      have hiter := moveIter_noHit oracle
        (⟨b.pos, some u, b.velocity.length * 0, u, [], 0, 0, 0⟩ : MoveState) u rfl ho
      have hloop := moveLoop_eval_break oracle 4 _ _ hiter
      rw [show moveLoop oracle MAX_BOUNCES
          (⟨b.pos, some u, b.velocity.length * 0, u, [], 0, 0, 0⟩ : MoveState)
          = _ from hloop]
      show b.pos + (b.velocity.length * 0) • u = b.pos
      rw [hd0]
      simp
    | some hit =>
      obtain ⟨ht0, htle, -⟩ := hor _ _ ho
      simp only at htle
      have hfar : (⟨b.pos, some u, b.velocity.length * 0, u, [], 0, 0, 0⟩ : MoveState).dist
          ≤ hit.toi := by
        show b.velocity.length * 0 ≤ hit.toi
        rw [hd0]
        exact ht0
      have hiter := moveIter_farHit oracle
        (⟨b.pos, some u, b.velocity.length * 0, u, [], 0, 0, 0⟩ : MoveState) u hit rfl ho hfar
      have hloop := moveLoop_eval_break oracle 4 _ _ hiter
      rw [show moveLoop oracle MAX_BOUNCES
          (⟨b.pos, some u, b.velocity.length * 0, u, [], 0, 0, 0⟩ : MoveState)
          = _ from hloop]
      show b.pos + max (hit.toi - SKIN_WIDTH) 0 • u = b.pos
      rw [hd0] at htle
      rw [show max (hit.toi - SKIN_WIDTH) 0 = 0 from max_eq_right (by linarith)]
      simp

/-- A `CustomMain` run whose generic time delta is zero moves no body. -/
theorem customMain_positions (w : World) (hg : w.genericDelta = 0)
    (hor : OracleValid w.oracle) :
    (customMain w).bodies.map Body.pos = w.bodies.map Body.pos := by
  have hmove : ∀ bd : Body, ((moveCharacter w.oracle (dtSeconds 0) bd).body).pos = bd.pos := by
    intro bd
    rw [dtSeconds_zero]
    exact moveCharacter_zero_dt w.oracle hor bd
  unfold customMain
  simp only [setVelocity_oracle, setVelocity_genericDelta, List.map_map]
  have hgd : ({ w with frameCount := w.frameCount + 1 } : World).genericDelta = 0 := hg
  rw [hgd]
  have hcomp : (Body.pos ∘ fun b => (moveCharacter w.oracle (dtSeconds 0) b).body)
      = Body.pos := funext hmove
  rw [hcomp]
  exact setVelocity_positions _

/-- C10: an explicit single-tick advance leaves the custom clock (elapsed,
delta and overstep) untouched — only `expend_custom` advances it — and if the
clock's per-tick delta is still zero (as it is from creation until the first
free-running tick), the single-stepped tick computes a zero travel distance
and leaves every body's position unchanged. -/
theorem c10_single_step_zero_delta (w : World) (hd : w.clock.delta = 0)
    (hor : OracleValid w.oracle) :
    (stepCustomSchedule w).clock = w.clock ∧
    (stepCustomSchedule w).bodies.map Body.pos = w.bodies.map Body.pos := by
  refine ⟨stepCustomSchedule_clock w, ?_⟩
  show (customMain { w with genericDelta := w.clock.delta }).bodies.map Body.pos
      = w.bodies.map Body.pos
  exact customMain_positions _ hd hor

/-- Witness for C10 at the concrete single-pulse world. -/
theorem c10_single_step_zero_delta_witness :
    (stepCustomSchedule steppingWorld).clock = steppingWorld.clock ∧
    (stepCustomSchedule steppingWorld).bodies.map Body.pos
      = steppingWorld.bodies.map Body.pos :=
  c10_single_step_zero_delta steppingWorld rfl
    (by
      intro q h hq
      exact absurd hq (by simp [steppingWorld, emptyWorld]))

/-! ### Claim C9: recording keys -/

/-- Counterexample to C9 as stated: after the first tick of a fresh live
session (frame counter starting at 0), the sampled velocity is stored under
tick index 1, and nothing is stored under index 0 — `increment_frame` runs
before `set_velocity`. -/
theorem c9_counterexample :
    (stepCustomSchedule c9World).recorded 0 = none ∧
    (stepCustomSchedule c9World).recorded 1 = some ⟨15, 0, 0⟩ := by
  have hrec : (stepCustomSchedule c9World).recorded
      = insertRec c9World.recorded 1 ⟨15, 0, 0⟩ := by
    show (customMain { c9World with genericDelta := c9World.clock.delta }).recorded = _
    unfold customMain setVelocity
    simp [c9World, emptyWorld]
  rw [hrec]
  unfold insertRec
  constructor
  · rw [if_neg (by omega)]
    rfl
  · rw [if_pos rfl]

/-- C9 (amended): the recorded-input mapping is keyed by the frame counter,
which starts at 0 but is incremented at the start of every tick before the
velocity is sampled; a live tick therefore stores the sampled velocity under
`frameCount + 1` (so the first tick of a session stores under index 1, not 0)
and touches no other key. -/
theorem c9_record_keys (w : World) (hpb : w.playback = false) (hne : ¬ w.bodies = []) :
    (customMain w).frameCount = w.frameCount + 1 ∧
    (customMain w).recorded (w.frameCount + 1) = some (w.liveInput (w.frameCount + 1)) ∧
    (∀ k, k ≠ w.frameCount + 1 → (customMain w).recorded k = w.recorded k) := by
  refine ⟨customMain_frameCount w, ?_, ?_⟩
  · have hrec : (customMain w).recorded
        = insertRec w.recorded (w.frameCount + 1) (w.liveInput (w.frameCount + 1)) := by
      unfold customMain setVelocity
      simp [hpb, hne]
    rw [hrec]
    unfold insertRec
    rw [if_pos rfl]
  · intro k hk
    have hrec : (customMain w).recorded
        = insertRec w.recorded (w.frameCount + 1) (w.liveInput (w.frameCount + 1)) := by
      unfold customMain setVelocity
      simp [hpb, hne]
    rw [hrec]
    unfold insertRec
    rw [if_neg hk]

/-- Witness for C9 (amended) at the concrete live world. -/
theorem c9_record_keys_witness :
    (customMain c9World).frameCount = c9World.frameCount + 1 ∧
    (customMain c9World).recorded (c9World.frameCount + 1)
      = some (c9World.liveInput (c9World.frameCount + 1)) ∧
    (∀ k, k ≠ c9World.frameCount + 1 → (customMain c9World).recorded k = c9World.recorded k) :=
  c9_record_keys c9World rfl (by simp [c9World, emptyWorld])

/-! ### Claim C2: the replay round-trip -/

theorem moveCharacter_velocity (oracle : Oracle) (dt : ℝ) (b : Body) :
    (moveCharacter oracle dt b).body.velocity = b.velocity := by
  cases hdir : dir3New b.velocity with
  | none =>
    unfold moveCharacter
    rw [hdir]
  | some u =>
    unfold moveCharacter
    rw [hdir]

/-- With `expend_custom` succeeding exactly once, an overstep of exactly one
timestep drains in a single expend-and-run cycle. -/
theorem drainRun_one (w : World) (ho : w.clock.overstep = timestep) :
    drainRun w = customMain
      { w with
          clock := ⟨w.clock.overstep - timestep, w.clock.elapsed + timestep, timestep⟩
          genericDelta := timestep } := by
  have h1 : timestep ≤ w.clock.overstep := ho ▸ le_refl timestep
  have h2 : ¬ timestep ≤ (customMain
      { w with
          clock := ⟨w.clock.overstep - timestep, w.clock.elapsed + timestep, timestep⟩
          genericDelta := timestep }).clock.overstep := by
    rw [customMain_clock]
    show ¬ timestep ≤ w.clock.overstep - timestep
    rw [ho]
    simp only [timestep]
    omega
  rw [drainRun, dif_pos h1, drainRun, dif_neg h2]

theorem setVelocity_playback_some (w : World) (v : Vec3) (hpb : w.playback = true)
    (hlookup : w.recorded w.frameCount = some v) :
    (setVelocity w).bodies = w.bodies.map (fun b => { b with velocity := v }) := by
  unfold setVelocity
  rw [if_pos hpb, hlookup]

theorem customMain_velocities_playback (w : World) (hpb : w.playback = true) (v : Vec3)
    (hlookup : w.recorded (w.frameCount + 1) = some v) :
    (customMain w).bodies.map Body.velocity = w.bodies.map (fun _ => v) := by
  unfold customMain
  simp only [setVelocity_oracle, setVelocity_genericDelta, List.map_map]
  have hcomp : ∀ (f : Oracle) (d : ℝ),
      (Body.velocity ∘ fun b => (moveCharacter f d b).body) = Body.velocity :=
    fun f d => funext fun bd => moveCharacter_velocity f d bd
  rw [hcomp]
  rw [setVelocity_playback_some { w with frameCount := w.frameCount + 1 } v hpb hlookup]
  simp only [List.map_map]
  rfl

theorem setVelocity_eval_live (w : World) (hpb : w.playback = false)
    (hne : ¬ w.bodies = []) :
    setVelocity w = { w with
      bodies := w.bodies.map (fun b => { b with velocity := w.liveInput w.frameCount })
      recorded := insertRec w.recorded w.frameCount (w.liveInput w.frameCount) } := by
  unfold setVelocity
  rw [if_neg (by rw [hpb]; exact Bool.false_ne_true)]
  simp only []
  rw [if_neg (show ¬ w.bodies.isEmpty = true from by simpa using hne)]

theorem customMain_eval_live (w : World) (hpb : w.playback = false)
    (hne : ¬ w.bodies = []) :
    customMain w = { w with
      frameCount := w.frameCount + 1
      recorded := insertRec w.recorded (w.frameCount + 1) (w.liveInput (w.frameCount + 1))
      bodies := (w.bodies.map (fun b => { b with velocity := w.liveInput (w.frameCount + 1) })).map
          (fun b => (moveCharacter w.oracle (dtSeconds w.genericDelta) b).body) } := by
  unfold customMain
  simp only []
  rw [setVelocity_eval_live { w with frameCount := w.frameCount + 1 } hpb hne]

theorem len15 : (⟨15, 0, 0⟩ : Vec3).length = 15 :=
  length_eval _ _ (by norm_num) (by simp [Vec3.normSq]; norm_num)

theorem dir15 : dir3New ⟨15, 0, 0⟩ = some ⟨1, 0, 0⟩ := by
  rw [dir3New_eval _ 15 (by norm_num) len15]
  rw [show (15 : ℝ)⁻¹ • (⟨15, 0, 0⟩ : Vec3) = ⟨1, 0, 0⟩ from by ext <;> simp <;> norm_num]

theorem dtSeconds_timestep : dtSeconds timestep = 0.015625 := by
  unfold dtSeconds timestep
  norm_num

/-- One live tick on the empty scene moves the body by
`15 * 0.015625 = 0.234375` along x. -/
theorem c2_move_live :
    (moveCharacter (fun _ => none) (dtSeconds timestep) ⟨⟨0, 0, 0⟩, ⟨15, 0, 0⟩⟩).body
      = ⟨⟨0.234375, 0, 0⟩, ⟨15, 0, 0⟩⟩ := by
  rw [dtSeconds_timestep]
  rw [moveCharacter_eval _ _ _ ⟨1, 0, 0⟩ dir15]
  have hiter := moveIter_noHit (fun _ => none)
    (⟨⟨0, 0, 0⟩, some ⟨1, 0, 0⟩, (⟨15, 0, 0⟩ : Vec3).length * 0.015625, ⟨1, 0, 0⟩,
      [], 0, 0, 0⟩ : MoveState) ⟨1, 0, 0⟩ rfl rfl
  have hloop := moveLoop_eval_break (fun _ => none) 4 _ _ hiter
  rw [show moveLoop (fun _ => none) MAX_BOUNCES
      (⟨⟨0, 0, 0⟩, some ⟨1, 0, 0⟩, (⟨15, 0, 0⟩ : Vec3).length * 0.015625, ⟨1, 0, 0⟩,
        [], 0, 0, 0⟩ : MoveState) = _ from hloop]
  apply Body.ext
  · show (⟨0, 0, 0⟩ : Vec3) + ((⟨15, 0, 0⟩ : Vec3).length * 0.015625) • (⟨1, 0, 0⟩ : Vec3)
        = ⟨0.234375, 0, 0⟩
    rw [len15]
    ext <;> simp <;> norm_num
  · rfl

/-- The live session: its single render frame of one timestep executes one
tick, records the input under key 1 and moves the body to `(0.234375,0,0)`. -/
theorem c2_live_eval : runCustomSchedule liveWorld = liveResult := by
  have harg : ({ liveWorld with
      clock := { liveWorld.clock with
        overstep := liveWorld.clock.overstep + liveWorld.virtualDelta } } : World)
      = { liveWorld with clock := ⟨timestep, 0, 0⟩ } := by
    apply World.ext <;> rfl
  have h2 : drainRun { liveWorld with clock := ⟨timestep, 0, 0⟩ } = customMain liveTickWorld := by
    rw [drainRun_one { liveWorld with clock := ⟨timestep, 0, 0⟩ } rfl]
    exact congrArg customMain (by apply World.ext <;> rfl)
  have h3 := customMain_eval_live liveTickWorld rfl
    (by simp [liveTickWorld, liveWorld, emptyWorld])
  unfold runCustomSchedule
  rw [if_neg (show ¬ liveWorld.steppingEnabled = true from by simp [liveWorld, emptyWorld])]
  simp only []
  rw [harg, h2, h3]
  apply World.ext
  · rfl
  · rfl
  · rfl
  · rfl
  · rfl
  · rfl
  · rfl
  · rfl
  · show (liveTickWorld.bodies.map
        (fun b => { b with velocity := liveTickWorld.liveInput (liveTickWorld.frameCount + 1) })).map
          (fun b => (moveCharacter liveTickWorld.oracle (dtSeconds liveTickWorld.genericDelta) b).body)
        = liveResult.bodies
    show [(moveCharacter (fun _ => none) (dtSeconds timestep) (⟨⟨0, 0, 0⟩, ⟨15, 0, 0⟩⟩ : Body)).body]
        = [(⟨⟨0.234375, 0, 0⟩, ⟨15, 0, 0⟩⟩ : Body)]
    rw [c2_move_live]
  · rfl

/-- C2 evidence: the live session's tick moves the body to `(0.234375,0,0)`,
but replaying the saved recording moves it nowhere — in playback mode
stepping is enabled from startup, `expend_custom`/`advance_by` never runs, so
the manually stepped tick observes the custom clock's delta of zero and the
mover computes a zero travel distance.  The recorded velocity IS read back
(the replayed body's velocity is `(15,0,0)`), yet the position sequences
differ, so the replay round-trip does not reproduce the live run. -/
theorem c2_replay_divergence :
    (runCustomSchedule liveWorld).bodies.map Body.pos = [⟨0.234375, 0, 0⟩] ∧
    (stepCustomSchedule replayWorld).bodies.map Body.pos = [⟨0, 0, 0⟩] ∧
    (stepCustomSchedule replayWorld).bodies.map Body.velocity = [⟨15, 0, 0⟩] ∧
    (runCustomSchedule liveWorld).bodies.map Body.pos
      ≠ (stepCustomSchedule replayWorld).bodies.map Body.pos := by
  have hlook : replayWorld.recorded 1 = some ⟨15, 0, 0⟩ := by
    show saveLoadRecorded ((runCustomSchedule liveWorld).recorded) 1 = some ⟨15, 0, 0⟩
    rw [c2_live_eval]
    rfl
  have h1 : (runCustomSchedule liveWorld).bodies.map Body.pos = [⟨0.234375, 0, 0⟩] := by
    rw [c2_live_eval]
    rfl
  have h2 : (stepCustomSchedule replayWorld).bodies.map Body.pos = [⟨0, 0, 0⟩] := by
    have hp := customMain_positions { replayWorld with genericDelta := replayWorld.clock.delta }
      rfl (by
        intro q hh hq
        simp [replayWorld, emptyWorld] at hq)
    show (customMain { replayWorld with genericDelta := replayWorld.clock.delta }).bodies.map
        Body.pos = [⟨0, 0, 0⟩]
    rw [hp]
    rfl
  have h3 : (stepCustomSchedule replayWorld).bodies.map Body.velocity = [⟨15, 0, 0⟩] := by
    show (customMain { replayWorld with genericDelta := replayWorld.clock.delta }).bodies.map
        Body.velocity = [⟨15, 0, 0⟩]
    rw [customMain_velocities_playback { replayWorld with genericDelta := replayWorld.clock.delta }
      rfl ⟨15, 0, 0⟩ hlook]
    rfl
  refine ⟨h1, h2, h3, ?_⟩
  rw [h1, h2]
  intro h
  injection h with hh _
  have hx := congrArg Vec3.x hh
  norm_num at hx

end KCC
